import Mathlib

/-
Verification of the CmdStan CSV / Rdump ingestion code (io_cmdstan.py).
Python strings are modelled as Lean Strings (lists of characters); the
relevant Python string methods (strip, split, replace, containment,
int()/float() literal parsing) are given executable models below, and the
parsing functions of the source are transcribed on top of them.
-/

/-- Python whitespace characters (the default set for str.strip / str.split). -/
def wsChar (c : Char) : Bool :=
  c = ' ' || c = '\t' || c = '\n' || c = '\r' || c = (Char.ofNat 11) || c = (Char.ofNat 12)

/-- Drop trailing characters satisfying a predicate. -/
def dropEndWhile (p : Char → Bool) (l : List Char) : List Char :=
  (l.reverse.dropWhile p).reverse

/-- Strip characters satisfying a predicate from both ends of a character list. -/
def stripListP (p : Char → Bool) (l : List Char) : List Char :=
  dropEndWhile p (l.dropWhile p)

/-- Model of Python str.strip() with no argument (strip whitespace from both ends). -/
def pyStrip (s : String) : String :=
  ⟨stripListP wsChar s.data⟩

/-- Model of Python str.strip(chars): strip any character in the set from both ends. -/
def pyStripChars (cs : String) (s : String) : String :=
  ⟨stripListP (fun c => cs.data.contains c) s.data⟩

/-- Model of Python str.startswith. -/
def pyStartsWith (s pre : String) : Bool :=
  pre.data.isPrefixOf s.data

/-- Model of Python str.endswith. -/
def pyEndsWith (s suf : String) : Bool :=
  suf.data.reverse.isPrefixOf s.data.reverse

/-- Auxiliary for str.split(sep) over character lists; the separator is c :: cs.
The Nat argument is structural-recursion fuel; any fuel at least the length of
the list gives the true result, since every step consumes at least one
character. -/
def splitSepAux (c : Char) (cs : List Char) : Nat → List Char → List (List Char)
  | _, [] => [[]]
  | 0, l => [l]
  | fuel + 1, a :: rest =>
    if (c :: cs).isPrefixOf (a :: rest) then
      [] :: splitSepAux c cs fuel (rest.drop cs.length)
    else
      match splitSepAux c cs fuel rest with
      | [] => [[a]]
      | h :: t => (a :: h) :: t

/-- Model of Python str.split(sep) for a non-empty separator. -/
def pySplit (sep : String) (s : String) : List String :=
  match sep.data with
  | [] => [s]
  | c :: cs => (splitSepAux c cs s.data.length s.data).map String.mk

/-- Auxiliary for str.replace over character lists; the pattern is c :: cs and
the Nat argument is structural-recursion fuel as in splitSepAux. -/
def replaceSepAux (c : Char) (cs : List Char) (r : List Char) : Nat → List Char → List Char
  | _, [] => []
  | 0, l => l
  | fuel + 1, a :: rest =>
    if (c :: cs).isPrefixOf (a :: rest) then
      r ++ replaceSepAux c cs r fuel (rest.drop cs.length)
    else
      a :: replaceSepAux c cs r fuel rest

/-- Model of Python str.replace(pat, rep) for a non-empty pattern. -/
def pyReplace (pat rep : String) (s : String) : String :=
  match pat.data with
  | [] => s
  | c :: cs => ⟨replaceSepAux c cs rep.data s.data.length s.data⟩

/-- Auxiliary substring containment test over character lists. -/
def containsSubAux (pat : List Char) : List Char → Bool
  | [] => pat.isEmpty
  | a :: rest => pat.isPrefixOf (a :: rest) || containsSubAux pat rest

/-- Model of the Python `in` operator on strings (substring containment). -/
def pyIn (pat : String) (s : String) : Bool :=
  pat.data.isEmpty || containsSubAux pat.data s.data

/-- Model of Python str.split() with no argument: split on whitespace runs. -/
def pySplitWs (s : String) : List String :=
  ((s.data.splitOnP (fun c => wsChar c)).filter (fun l => l ≠ [])).map String.mk

/-- Numeric value of a list of decimal digit characters. -/
def natOfDigits (l : List Char) : Nat :=
  l.foldl (fun n c => n * 10 + (c.toNat - 48)) 0

/-- Parse a non-empty all-digit character list. -/
def parseDigits (l : List Char) : Option Nat :=
  if l ≠ [] ∧ l.all (fun c => c.isDigit) then some (natOfDigits l) else none

/-- Parse an optionally signed digit string (no surrounding whitespace). -/
def parseSignedDigits (l : List Char) : Option Int :=
  match l with
  | '+' :: ds => (parseDigits ds).map Int.ofNat
  | '-' :: ds => (parseDigits ds).map (fun n => -(n : Int))
  | ds => (parseDigits ds).map Int.ofNat

/-- Model of Python int(str): tolerate surrounding whitespace, optional sign, digits. -/
def pyInt (s : String) : Option Int :=
  parseSignedDigits (stripListP wsChar s.data)

/-- Exact decimal number: the represented value is
(if sign then -1 else 1) * mant * 10 ^ exp.  Canonical form (produced by
mkDec) has a mantissa not divisible by 10 and represents zero as
⟨false, 0, 0⟩, so structural equality coincides with numeric equality.
This represents exactly every value the source ever stores: the parsers only
ever convert finite decimal literals and copy them around. -/
structure Dec where
  sign : Bool
  mant : Nat
  exp : Int
deriving DecidableEq

/-- Strip factors of 10 from a mantissa (fuel-based; fuel ≥ mant suffices),
returning the stripped mantissa and the number of factors removed. -/
def stripTens : Nat → Nat → Nat × Nat
  | 0, m => (m, 0)
  | fuel + 1, m =>
    if m % 10 = 0 ∧ m ≠ 0 then
      let p := stripTens fuel (m / 10)
      (p.1, p.2 + 1)
    else (m, 0)

/-- Build a canonical decimal from sign, mantissa and exponent. -/
def mkDec (sign : Bool) (mant : Nat) (exp : Int) : Dec :=
  if mant = 0 then ⟨false, 0, 0⟩
  else
    let p := stripTens mant mant
    ⟨sign, p.1, exp + (p.2 : Int)⟩

/-- Canonical decimal of a natural number. -/
def decOfNat (n : Nat) : Dec :=
  mkDec false n 0

/-- Parse the mantissa part of a Python float literal (digits with optional
dot), returning the digit value and the number of fractional digits. -/
def parseMant (l : List Char) : Option (Nat × Nat) :=
  match l.splitOnP (fun c => c = '.') with
  | [ds] =>
    if ds ≠ [] ∧ ds.all (fun c => c.isDigit) then some (natOfDigits ds, 0) else none
  | [as, bs] =>
    if (as ≠ [] ∨ bs ≠ []) ∧ as.all (fun c => c.isDigit) ∧ bs.all (fun c => c.isDigit) then
      some (natOfDigits (as ++ bs), bs.length)
    else none
  | _ => none

/-- Model of Python float(str) restricted to finite decimal literals, with the
value represented exactly as a canonical decimal. -/
def pyFloat (s : String) : Option Dec :=
  let l := stripListP wsChar s.data
  let sl : Bool × List Char :=
    match l with
    | '+' :: r => (false, r)
    | '-' :: r => (true, r)
    | r => (false, r)
  match sl.2.splitOnP (fun c => c = 'e' || c = 'E') with
  | [m] => (parseMant m).map (fun p => mkDec sl.1 p.1 (-(p.2 : Int)))
  | [m, e] => do
    let p ← parseMant m
    let ev ← parseSignedDigits e
    pure (mkDec sl.1 p.1 (ev - (p.2 : Int)))
  | _ => none

/-- Tests whether a CSV cell is a numeric literal (used to model pandas dtype
inference and pd.to_numeric). -/
def isNumericCell (s : String) : Bool :=
  (pyFloat s).isSome

instance {ε α : Type} [DecidableEq ε] [DecidableEq α] : DecidableEq (Except ε α) := fun x y =>
  match x, y with
  | .ok a, .ok b => decidable_of_iff (a = b) (by simp)
  | .error a, .error b => decidable_of_iff (a = b) (by simp)
  | .ok _, .error _ => isFalse (by simp)
  | .error _, .ok _ => isFalse (by simp)

/-- Sampler run configuration extracted from the comment header.  The source
initialises num_samples / num_warmup / save_warmup to None and leaves them
None when their comment line is absent; `thin` is a plain local that is never
initialised, so reaching the final dictionary build with no thin line raises
UnboundLocalError, modelled as the missingThin error. -/
structure RunConfig where
  num_samples : Option Int
  num_warmup : Option Int
  save_warmup : Option Bool
  thin : Int
deriving DecidableEq

/-- Errors of the comment-header parser: missingThin models the
UnboundLocalError raised when no thin line was seen; badInt models the
ValueError raised by int() on a malformed field value. -/
inductive ConfErr where
  | missingThin
  | badInt (field : String)
deriving DecidableEq

/-- State of the header-parsing loop: the four fields, each still optional. -/
abbrev ConfSt := Option Int × Option Int × Option Bool × Option Int

/-- Process one comment line of the header, mirroring the if/elif chain of
`_process_configuration` (including Python's character-set semantics of
str.strip with an argument). -/
def confStep (st : ConfSt) (comment : String) : Except ConfErr ConfSt :=
  let c := pyStrip (pyStripChars ("#") comment)
  if pyStartsWith c ("num_samples") then
    match pyInt (pyStripChars ("(Default)") (pyStripChars ("num_samples = ") c)) with
    | some v => .ok (some v, st.2.1, st.2.2.1, st.2.2.2)
    | none => .error (.badInt ("num_samples"))
  else if pyStartsWith c ("num_warmup") then
    match pyInt (pyStripChars ("(Default)") (pyStripChars ("num_warmup = ") c)) with
    | some v => .ok (st.1, some v, st.2.2.1, st.2.2.2)
    | none => .error (.badInt ("num_warmup"))
  else if pyStartsWith c ("save_warmup") then
    match pyInt (pyStripChars ("(Default)") (pyStripChars ("save_warmup = ") c)) with
    | some v => .ok (st.1, st.2.1, some (v ≠ 0), st.2.2.2)
    | none => .error (.badInt ("save_warmup"))
  else if pyStartsWith c ("thin") then
    match pyInt (pyStripChars ("(Default)") (pyStripChars ("thin = ") c)) with
    | some v => .ok (st.1, st.2.1, st.2.2.1, some v)
    | none => .error (.badInt ("thin"))
  else
    .ok st

/-- Model of `_process_configuration`: fold the comment lines through the
if/elif chain and build the configuration; a never-assigned thin is the
UnboundLocalError (missingThin). -/
def processConfiguration (comments : List String) : Except ConfErr RunConfig := do
  let st ← comments.foldlM confStep (none, none, none, none)
  match st.2.2.2 with
  | some t => .ok ⟨st.1, st.2.1, st.2.2.1, t⟩
  | none => .error .missingThin

/-- Tests that the value on a recognized configuration line parses as an
integer (lines matching no recognized field trivially qualify). -/
def confLineOk (line : String) : Bool :=
  let c := pyStrip (pyStripChars ("#") line)
  if pyStartsWith c ("num_samples") then
    (pyInt (pyStripChars ("(Default)") (pyStripChars ("num_samples = ") c))).isSome
  else if pyStartsWith c ("num_warmup") then
    (pyInt (pyStripChars ("(Default)") (pyStripChars ("num_warmup = ") c))).isSome
  else if pyStartsWith c ("save_warmup") then
    (pyInt (pyStripChars ("(Default)") (pyStripChars ("save_warmup = ") c))).isSome
  else if pyStartsWith c ("thin") then
    (pyInt (pyStripChars ("(Default)") (pyStripChars ("thin = ") c))).isSome
  else
    true

/-- Tagged parse result of one flat-data statement (scalar, 1-D vector, or an
n-dimensional array given by its dimensions and its flat numeric sequence in
column-major / Fortran order, exactly as the source stores it before
np.reshape(order='F')). -/
inductive DataValue where
  | scalar (v : Dec)
  | vector (vs : List Dec)
  | arr (dims : List Nat) (flat : List Dec)
deriving DecidableEq

/-- Errors of the flat-data parser: unpackMismatch models the ValueError of
`key, var = string.split("<-")` when the split does not give exactly two
parts; structureSplit the same for the split on ".Dim"; badNumber a malformed
float()/int() literal; badDims an np.reshape dimension mismatch. -/
inductive DataErr where
  | unpackMismatch
  | structureSplit
  | badNumber
  | badDims
deriving DecidableEq

/-- Parse every string of a list as a Python float. -/
def parseFloatList (l : List String) : Except DataErr (List Dec) :=
  l.mapM (fun s =>
    match pyFloat s with
    | some q => Except.ok q
    | none => Except.error DataErr.badNumber)

/-- Parse every string of a list as a Python int. -/
def parseDimList (l : List String) : Except DataErr (List Int) :=
  l.mapM (fun s =>
    match pyInt s with
    | some n => Except.ok n
    | none => Except.error DataErr.badNumber)

/-- Convert parsed dimensions to Nats (np.reshape rejects negative entries
other than the -1 placeholder, which the CmdStan dump format never uses). -/
def toDims (l : List Int) : Except DataErr (List Nat) :=
  if l.all (fun i => 0 ≤ i) then .ok (l.map Int.toNat) else .error .badDims

/-- Model of `_process_data_var`: split one accumulated statement at the
assignment marker and dispatch on the shape of the value (structure(...) /
c(...) / scalar), with every replace/strip/split mirroring the source. -/
def processDataVar (s : String) : Except DataErr (String × DataValue) :=
  match pySplit ("<-") s with
  | [key, var] =>
    if pyIn ("structure") var then
      match pySplit (".Dim") (pyReplace (",") ("") (pyReplace ("structure(") ("") var)) with
      | [v, d] => do
        let nums ← parseFloatList
          (pySplitWs (pyStrip (pyReplace (")") ("") (pyReplace ("c(") ("") v))))
        let dimsI ← parseDimList
          (pySplitWs (pyStrip (pyReplace (")") ("")
            (pyReplace ("c(") ("") (pyReplace ("=") ("") d)))))
        let dims ← toDims dimsI
        if dims.prod = nums.length then
          .ok (pyStrip key, .arr dims nums)
        else .error .badDims
      | _ => .error .structureSplit
    else if pyIn ("c(") var then do
      let nums ← parseFloatList (pySplit (",") (pyReplace (")") ("") (pyReplace ("c(") ("") var)))
      .ok (pyStrip key, .vector nums)
    else
      match pyFloat var with
      | some q => .ok (pyStrip key, .scalar q)
      | none => .error .badNumber
  | _ => .error .unpackMismatch

/-- Insert into the model of a Python dict (insertion-ordered, overwriting an
existing key in place). -/
def insertKV (data : List (String × DataValue)) (k : String) (v : DataValue) :
    List (String × DataValue) :=
  if data.any (fun p => p.1 = k) then
    data.map (fun p => if p.1 = k then (k, v) else p)
  else data ++ [(k, v)]

/-- One line of the `_read_data` loop: on an assignment marker, flush the
previously accumulated statement (if non-empty) and restart accumulation;
otherwise keep accumulating. -/
def readDataStep (st : List (String × DataValue) × String) (line : String) :
    Except DataErr (List (String × DataValue) × String) :=
  if pyIn ("<-") line then
    if st.2.data ≠ [] then do
      let kv ← processDataVar st.2
      .ok (insertKV st.1 kv.1 kv.2, (" ") ++ pyStrip line)
    else
      .ok (st.1, (" ") ++ pyStrip line)
  else
    .ok (st.1, st.2 ++ (" ") ++ pyStrip line)

/-- Fold of `_read_data` from a given dict and accumulator, followed by the
end-of-input flush of the last accumulated statement. -/
def readDataFrom (data : List (String × DataValue)) (var : String) (lines : List String) :
    Except DataErr (List (String × DataValue)) := do
  let st ← lines.foldlM readDataStep (data, var)
  if st.2.data ≠ [] then do
    let kv ← processDataVar st.2
    .ok (insertKV st.1 kv.1 kv.2)
  else .ok st.1

/-- Model of `_read_data`: fold the file lines starting from an empty dict and
an empty accumulator. -/
def readData (lines : List String) : Except DataErr (List (String × DataValue)) :=
  readDataFrom [] ("") lines

/-- Column-major (Fortran-order) flat index of a multi-index in an array of
the given dimensions. -/
def fIndex (dims : List Nat) (idx : List Nat) : Nat :=
  match dims, idx with
  | d :: ds, i :: is => i + d * fIndex ds is
  | _, _ => 0

/-- Element of a column-major flat array at a multi-index. -/
def arrGet (dims : List Nat) (flat : List Dec) (idx : List Nat) : Option Dec :=
  flat[fIndex dims idx]?

/-- One column of a pandas DataFrame in the model: its name, its dtype tag
and its cell values in row order. -/
structure SCol where
  name : String
  dtype : String
  vals : List Dec
deriving DecidableEq

/-- A DataFrame modelled as its ordered list of columns. -/
abbrev SDf := List SCol

/-- Column lookup by name (df[col]); None models the KeyError. -/
def dfLookup (df : SDf) (name : String) : Option (List Dec) :=
  (df.find? (fun c => c.name = name)).map SCol.vals

/-- Row count of a DataFrame (len(df)). -/
def dfLen (df : SDf) : Nat :=
  match df with
  | [] => 0
  | c :: _ => c.vals.length

/-- Errors of the reconstructor: emptyList models the IndexError of dfs[0] on
an empty input list; badColumn the int() ValueError on a non-integer index
segment of a column name; ragged the failure of np.array on index tuples of
differing arity within one group; missingColumn a df[col] KeyError in a later
chain; lengthMismatch the numpy broadcast error when a column's length is not
the draw count. -/
inductive UnpackErr where
  | emptyList
  | badColumn (col : String)
  | ragged (key : String)
  | missingColumn (col : String)
  | lengthMismatch (col : String)
deriving DecidableEq

/-- Split a column name at the dots into its base name and its 0-based
multi-index (`key, *loc = col.split('.')`, then int(i) - 1 per segment). -/
def parseLoc (col : String) : Except UnpackErr (String × List Int) :=
  match pySplit (".") col with
  | [] => .error (.badColumn col)
  | key :: locStrs => do
    let loc ← locStrs.mapM (fun s =>
      match pyInt s with
      | some v => Except.ok (v - 1)
      | none => Except.error (UnpackErr.badColumn col))
    .ok (key, loc)

/-- Append a column to the group of its base name, preserving first-seen
group order (collections.defaultdict insertion semantics). -/
def addToGroup (gs : List (String × List (String × List Int))) (key : String)
    (cl : String × List Int) : List (String × List (String × List Int)) :=
  if gs.any (fun g => g.1 = key) then
    gs.map (fun g => if g.1 = key then (g.1, g.2 ++ [cl]) else g)
  else gs ++ [(key, [cl])]

/-- Group the columns of the first DataFrame by base name. -/
def colGroups (cols : List String) :
    Except UnpackErr (List (String × List (String × List Int))) :=
  cols.foldlM (fun gs col => do
    let kl ← parseLoc col
    Except.ok (addToGroup gs kl.1 (col, kl.2))) []

/-- Dense tensor of shape (chains, draws, *dims), with the cell function
returning none for cells never written (the np.nan fill of np.full). -/
structure Tensor where
  chains : Nat
  draws : Nat
  dims : List Int
  val : Nat → Nat → List Int → Option Dec

/-- Elementwise max of two index tuples (np.ndarray.max(0) step). -/
def zipMax (a b : List Int) : List Int :=
  List.zipWith max a b

/-- Elementwise maximum over a group's index tuples. -/
def eltMaxLocs (locs : List (List Int)) : List Int :=
  match locs with
  | [] => []
  | l :: ls => ls.foldl zipMax l

/-- Tests that all index tuples of a group have the same arity. -/
def allSameLen (locs : List (List Int)) : Bool :=
  match locs with
  | [] => true
  | l :: ls => ls.all (fun x => x.length = l.length)

/-- Write one chain's column values into the slice (chain, :, *loc):
sample[key][chain_id, :, *loc] = draw, and sample[key][chain_id, :] = draw
for an empty loc. -/
def updateChainSlice (t : Tensor) (cid : Nat) (loc : List Int) (vs : List Dec) : Tensor :=
  { t with val := fun c d l => if c = cid ∧ l = loc then vs[d]? else t.val c d l }

/-- Write one column across all chains (the chain_id loop of the source). -/
def writeColChains (col : String) (loc : List Int) :
    List SDf → Nat → Tensor → Except UnpackErr Tensor
  | [], _, t => .ok t
  | df :: rest, cid, t =>
    match dfLookup df col with
    | none => .error (.missingColumn col)
    | some vs =>
      if vs.length = t.draws then
        writeColChains col loc rest (cid + 1) (updateChainSlice t cid loc vs)
      else .error (.lengthMismatch col)

/-- Build the dense tensor of one base-name group: allocate the nan-filled
tensor of shape (chains, draws, *(max loc + 1)) and write every column of the
group in order. -/
def buildGroup (chains draws : Nat) (dfs : List SDf) (key : String)
    (colsLocs : List (String × List Int)) : Except UnpackErr Tensor :=
  if allSameLen (colsLocs.map Prod.snd) = true then
    colsLocs.foldlM (fun t cl => writeColChains cl.1 cl.2 dfs 0 t)
      ⟨chains, draws, (eltMaxLocs (colsLocs.map Prod.snd)).map (fun i => i + 1),
        fun _ _ _ => none⟩
  else .error (.ragged key)

/-- Model of `_unpack_dataframes`: group the first DataFrame's columns by base
name and build one tensor per group. -/
def unpackDataframes (dfs : List SDf) : Except UnpackErr (List (String × Tensor)) :=
  match dfs with
  | [] => .error .emptyList
  | df0 :: _ => do
    let gs ← colGroups (df0.map SCol.name)
    gs.mapM (fun g => do
      let t ← buildGroup dfs.length (dfLen df0) dfs g.1 g.2
      Except.ok (g.1, t))

/-- Values of one column in one chain's DataFrame. -/
def colVals (dfs : List SDf) (c : Nat) (col : String) : Option (List Dec) :=
  match dfs[c]? with
  | some df => dfLookup df col
  | none => none

/-- The last column of a group whose multi-index equals l (the column whose
chain-loop writes the cell last under the source's overwrite semantics). -/
def lastAddr (colsLocs : List (String × List Int)) (l : List Int) :
    Option (String × List Int) :=
  (colsLocs.filter (fun cl => cl.2 = l)).getLast?

/-- Errors of the CSV reader: confErr wraps a header-parse failure; typeErr
models a TypeError from arithmetic on a None configuration field; zeroDiv a
ZeroDivisionError of //; noHeader the pandas EmptyDataError when the file has
no non-comment line; notNumeric a pd.to_numeric failure on a stacked
sub-table; invalidFormat the explicit ValueError naming the expected metadata
block and the file; lineRef a NameError on last_line_num's reading_line when
no metadata line was ever read. -/
inductive ReadErr where
  | confErr (e : ConfErr)
  | typeErr
  | zeroDiv
  | noHeader (path : String)
  | notNumeric (path : String)
  | invalidFormat (block : String) (path : String)
  | lineRef
deriving DecidableEq

/-- Result of the first line-by-line scan: the enumerate counter i at loop
exit, the configuration and adaptation comment blocks, and the parsed
configuration (None when no non-comment line was reached). -/
structure ScanOut where
  brk : Nat
  conf : List String
  adapt : List String
  pconf : Option RunConfig
deriving DecidableEq

/-- First pass of `_read_output`: enumerate the lines, collecting comment
lines before the header as configuration_info and comment lines after it as
adaptation_info; at the header, parse the configuration and, if warm-up was
saved, consume floor(num_warmup/thin) lines directly from the file iterator —
these skipped lines do not advance the enumerate counter (zip pulls from the
underlying iterator), which the model reproduces.  The Nat fuel argument is
structural-recursion fuel (fuel ≥ length suffices). -/
def scanGo (path : String) : Nat → List String → Nat → Bool → List String → List String →
    Option RunConfig → Except ReadErr ScanOut
  | _, [], i, _, conf, adapt, pc => .ok ⟨if i = 0 then 0 else i - 1, conf, adapt, pc⟩
  | 0, _, i, _, conf, adapt, pc => .ok ⟨if i = 0 then 0 else i - 1, conf, adapt, pc⟩
  | fuel + 1, line :: rest, i, cn, conf, adapt, pc =>
    let ls := pyStrip line
    if pyStartsWith ls ("#") then
      if cn then scanGo path fuel rest (i + 1) cn conf (adapt ++ [ls]) pc
      else scanGo path fuel rest (i + 1) cn (conf ++ [ls]) adapt pc
    else if cn then
      .ok ⟨i, conf, adapt, pc⟩
    else
      match processConfiguration conf with
      | .error e => .error (.confErr e)
      | .ok pconf =>
        if pconf.save_warmup = some true then
          match pconf.num_warmup with
          | none => .error .typeErr
          | some w =>
            if pconf.thin = 0 then .error .zeroDiv
            else scanGo path fuel (rest.drop (Int.fdiv w pconf.thin).toNat) (i + 1) true
              conf adapt (some pconf)
        else scanGo path fuel rest (i + 1) true conf adapt (some pconf)

/-- Run the first scan on a file given as its list of lines. -/
def scanOutput (path : String) (ls : List String) : Except ReadErr ScanOut :=
  scanGo path ls.length ls 0 false [] [] none

/-- Truncate a line at the comment character (pandas comment='#'). -/
def csvCut (s : String) : String :=
  ⟨s.data.takeWhile (fun c => c ≠ '#')⟩

/-- The lines pandas actually parses: comment-truncated, empties dropped. -/
def csvLines (ls : List String) : List String :=
  (ls.map csvCut).filter (fun s => s.data ≠ [])

/-- Model of pd.read_csv(comment='#'): the first remaining line is the
header, the rest are the data rows, all split at commas; none models the
EmptyDataError on a file with no parsable line. -/
def readCsvTable (ls : List String) : Option (List String × List (List String)) :=
  match csvLines ls with
  | [] => none
  | h :: rs => some (pySplit (",") h, rs.map (fun r => pySplit (",") r))

/-- First field of a row (the first-column cell). -/
def firstField (r : List String) : String :=
  r.headD ("")

/-- Model of df.iloc[:,0].dtype.kind == 'O': the first column is of object
dtype iff not every entry is a numeric literal. -/
def isStacked (rows : List (List String)) : Bool :=
  ¬ rows.all (fun r => isNumericCell (firstField r))

/-- Row indices whose first field equals the first column name (the repeated
header rows of a stacked file). -/
def colLocations (hdr0 : String) (rows : List (List String)) : List Nat :=
  ((rows.enum).filter (fun q => firstField q.2 = hdr0)).map Prod.fst

/-- Split the rows at the repeated-header indices, mirroring the source's
zip(col_locations, [-1] + col_locations[:-1]) loop: each segment strictly
between consecutive header rows is kept when non-empty, and the remainder
after the last header row is always appended. -/
def pySplitSegs (rows : List (List String)) : List Nat → Nat → List (List (List String))
  | [], start => [rows.drop start]
  | idx :: restIdx, start =>
    let seg := (rows.drop start).take (idx - start)
    (if seg.length ≠ 0 then [seg] else []) ++ pySplitSegs rows restIdx (idx + 1)

/-- Tests that every cell of a sub-table is numeric (pd.to_numeric on every
column). -/
def allNumericTable (rows : List (List String)) : Bool :=
  rows.all (fun r => r.all isNumericCell)

/-- Model of linecache.getline(path, n): 1-based, returning the empty string
out of range. -/
def getline (ls : List String) (n : Int) : String :=
  if 1 ≤ n then ls.getD (n - 1).toNat ("") else ("")

/-- Timing recovery for the first sub-table: read the 5 lines after the last
data row, strip each, and keep the non-empty ones (note: a blank line does
not stop the loop — the source has no break). -/
def timingWindow (ls : List String) (lineNum : Int) : List String :=
  ((List.range 5).map (fun k => pyStrip (getline ls (lineNum + (k : Int))))).filter
    (fun s => s.data ≠ [])

/-- Read the metadata lines of a later segment at the computed 1-based line
range [n, n + count): every line must start with the comment marker,
otherwise the conversion aborts with the ValueError naming the expected
block and the file. -/
def readMetaGo (path : String) (ls : List String) (block : String) :
    Nat → Int → Except ReadErr (List String)
  | 0, _ => .ok []
  | k + 1, n =>
    let line := getline ls n
    if pyStartsWith line ("#") then do
      let rest ← readMetaGo path ls block k (n + 1)
      .ok (line :: rest)
    else .error (.invalidFormat block path)

/-- Read the computed metadata range [a, b). -/
def readMetaLines (path : String) (ls : List String) (a b : Int) (block : String) :
    Except ReadErr (List String) :=
  readMetaGo path ls block (b - a).toNat a

/-- Python-style floor division with explicit ZeroDivisionError. -/
def pyFloorDiv (a b : Int) : Except ReadErr Int :=
  if b = 0 then .error .zeroDiv else .ok (Int.fdiv a b)

/-- warmup_rows = save_warmup * num_warmup // thin for a later segment, with
the TypeErrors arithmetic on a missing field would raise. -/
def warmupRows (pc : RunConfig) : Except ReadErr Int := do
  let sw ← match pc.save_warmup with
           | some b => Except.ok (if b then (1 : Int) else 0)
           | none => Except.error ReadErr.typeErr
  let nw ← match pc.num_warmup with
           | some w => Except.ok w
           | none => Except.error ReadErr.typeErr
  pyFloorDiv (sw * nw) pc.thin

/-- Python slice rows[k:] with Python's negative-index semantics; the source
calls it as df.iloc[-saved_samples:, :].  Note -0 = 0, so a zero saved-sample
count keeps every row. -/
def pyIlocFrom (k : Int) (rows : List (List String)) : List (List String) :=
  if 0 ≤ k then rows.drop k.toNat
  else rows.drop ((rows.length : Int) + k).toNat

/-- Warm-up removal: when save_warmup is truthy keep the trailing
num_samples // thin rows of the sub-table. -/
def trimWarmup (pc : RunConfig) (rows : List (List String)) :
    Except ReadErr (List (List String)) :=
  if pc.save_warmup = some true then do
    let ns ← match pc.num_samples with
             | some v => Except.ok v
             | none => Except.error ReadErr.typeErr
    let saved ← pyFloorDiv ns pc.thin
    .ok (pyIlocFrom (-saved) rows)
  else .ok rows

/-- One chain segment: the sample table, the stats table (columns ending in
the double-underscore marker) and the three metadata blocks. -/
structure ChainSeg where
  sampleCols : List String
  sampleRows : List (List String)
  statsCols : List String
  statsRows : List (List String)
  configuration_info : List String
  adaptation_info : List String
  timing_info : List String
deriving DecidableEq

/-- Select the columns satisfying p (by position of the matching names). -/
def selectCols (cols : List String) (rows : List (List String)) (p : String → Bool) :
    List String × List (List String) :=
  let idxs := ((cols.enum).filter (fun q => p q.2)).map Prod.fst
  (idxs.map (fun i => cols.getD i ("")), rows.map (fun r => idxs.map (fun i => r.getD i (""))))

/-- Split a sub-table into a ChainSeg: stats columns end with the reserved
double-underscore marker, sample columns are the others. -/
def mkSeg (cols : List String) (rows : List (List String))
    (conf adapt timing : List String) : ChainSeg :=
  let stats := selectCols cols rows (fun c => pyEndsWith c ("__"))
  let samp := selectCols cols rows (fun c => ¬ pyEndsWith c ("__"))
  ⟨samp.1, samp.2, stats.1, stats.2, conf, adapt, timing⟩

/-- Per-file metadata layout state carried from the first segment: the three
metadata block lengths and the 1-based number of the last line of the
previous segment's region. -/
structure SegSt where
  clen : Nat
  alen : Nat
  tlen : Nat
  lastLine : Int
deriving DecidableEq

/-- last_line_num = reading_line after the metadata loops: the loop variable
of the last non-empty range loop (NameError when all three are empty). -/
def lastReadLine (st : SegSt) (configEnd adaptEnd timingEnd : Int) : Except ReadErr Int :=
  if st.tlen ≠ 0 then .ok (timingEnd - 1)
  else if st.alen ≠ 0 then .ok (adaptEnd - 1)
  else if st.clen ≠ 0 then .ok (configEnd - 1)
  else .error .lineRef

/-- Lift a configuration-parse result into the reader's error type. -/
def confOrErr (x : Except ConfErr RunConfig) : Except ReadErr RunConfig :=
  match x with
  | .ok pc => .ok pc
  | .error e => .error (.confErr e)

/-- The loop over the second and later sub-tables: recompute the metadata
line ranges arithmetically from the previous segment's layout, re-read them
by line number from the original file (checking the comment marker), re-parse
the configuration, drop warm-up rows and emit one ChainSeg per sub-table. -/
def segLoopRest (path : String) (ls : List String) (cols : List String) :
    List (List (List String)) → SegSt → Except ReadErr (List ChainSeg)
  | [], _ => .ok []
  | rows :: restDfs, st => do
    let lineNum := st.lastLine + 1
    let configStart := lineNum
    let configEnd := configStart + (st.clen : Int)
    let conf ← readMetaLines path ls configStart configEnd ("Configuration")
    let pc ← confOrErr (processConfiguration conf)
    let wr ← warmupRows pc
    let adaptStart := configEnd + 1 + wr
    let adaptEnd := adaptStart + (st.alen : Int)
    let adapt ← readMetaLines path ls adaptStart adaptEnd ("Adaptation")
    let timingStart := adaptEnd + (rows.length : Int) - wr
    let timingEnd := timingStart + (st.tlen : Int)
    let timing ← readMetaLines path ls timingStart timingEnd ("Timing")
    let lastLine2 ← lastReadLine st configEnd adaptEnd timingEnd
    let rows2 ← trimWarmup pc rows
    let rest ← segLoopRest path ls cols restDfs { st with lastLine := lastLine2 }
    .ok (mkSeg cols rows2 conf adapt timing :: rest)

/-- Model of `_read_output`: first scan, pandas re-read, stacked-file split,
per-segment metadata recovery, warm-up trimming and stats/sample column
split, returning the ordered chain segments of one file. -/
def readOutput (path : String) (ls : List String) : Except ReadErr (List ChainSeg) := do
  let sc ← scanOutput path ls
  match readCsvTable ls with
  | none => .error (.noHeader path)
  | some cr => do
    let cols := cr.1
    let rows := cr.2
    let dfs ← if isStacked rows then
        let segs := pySplitSegs rows (colLocations (cols.headD ("")) rows) 0
        if segs.all allNumericTable then Except.ok segs
        else Except.error (ReadErr.notNumeric path)
      else Except.ok [rows]
    let pc0 ← match sc.pconf with
              | some pc => Except.ok pc
              | none => Except.error (ReadErr.noHeader path)
    match dfs with
    | [] => .ok []
    | rows0 :: restDfs => do
      let lineNum := (sc.brk : Int) + (rows0.length : Int) + 1
      let timing := timingWindow ls lineNum
      let st : SegSt := ⟨sc.conf.length, sc.adapt.length, timing.length,
        (sc.conf.length : Int) + (sc.adapt.length : Int) + (timing.length : Int) +
          (rows0.length : Int) + 1⟩
      let rows02 ← trimWarmup pc0 rows0
      let rest ← segLoopRest path ls cols restDfs st
      .ok (mkSeg cols rows02 sc.conf sc.adapt timing :: rest)

/-- The lines of the 1-based half-open range [a, b) of a file. -/
def fileSlice (ls : List String) (a b : Int) : List String :=
  (List.range (b - a).toNat).map (fun k : Nat => getline ls (a + (k : Int)))

/-- Stacked two-chain CSV fixture: two concatenated header blocks. -/
def stackedFile : List String :=
  [("# num_samples = 2"), ("# num_warmup = 1"), ("# save_warmup = 0"), ("# thin = 1"),
   ("lp__,x"), ("# a1"), ("1.0,2.0"), ("3.0,4.0"),
   ("# t1"), ("# t2"), ("# t3"), ("# t4"), ("# t5"),
   ("# num_samples = 2"), ("# num_warmup = 1"), ("# save_warmup = 0"), ("# thin = 1"),
   ("lp__,x"), ("# a2"), ("5.0,6.0"), ("7.0,8.0"),
   ("# u1"), ("# u2"), ("# u3"), ("# u4"), ("# u5")]

/-- Model of Python str.lower. -/
def pyLower (s : String) : String :=
  ⟨s.data.map Char.toLower⟩

/-- String-or-list argument (posterior_predictive, log_likelihood, prior,
observed_data_var accept either a single name/path or a list). -/
inductive NameArg where
  | strA (s : String)
  | listA (l : List String)
deriving DecidableEq

/-- Modelled from the spec: the external labeled-dataset builder
(dict_to_dataset / xr.Dataset from .base and xarray, not under src/) is an
opaque wrapper around the variable-to-tensor mapping; coordinate and
dimension metadata are consumed by that external API and are not modelled. -/
inductive Dataset where
  | tensors (m : List (String × Tensor))
  | observed (m : List (String × DataValue))

/-- Errors surfacing from the orchestrator's helpers: indexErr models the
IndexError of [0] on an empty list; nameErr the NameError on
log_likelihood_cols when log_likelihood is passed as a list. -/
inductive ConvErr where
  | unpack (e : UnpackErr)
  | readErr (e : ReadErr)
  | dataErr (e : DataErr)
  | indexErr
  | nameErr

/-- Converter state after `_parse_output`: the parsed posterior and
sample-stats tables plus the conversion arguments.  env is the file system
(path to lines); file I/O is modelled as env lookups. -/
structure Conv where
  posterior : Option (List SDf)
  sample_stats : Option (List SDf)
  posterior_predictive : Option NameArg
  prior : Option NameArg
  observed_data : Option String
  observed_data_var : Option NameArg
  log_likelihood : Option NameArg
  env : String → List String

/-- Wrap an unpack result into the orchestrator's error type. -/
def unpackOrErr (dfs : List SDf) : Except ConvErr (List (String × Tensor)) :=
  match unpackDataframes dfs with
  | .ok m => .ok m
  | .error e => .error (.unpack e)

/-- Wrap a CSV-read result into the orchestrator's error type. -/
def readOutputOrErr (path : String) (ls : List String) : Except ConvErr (List ChainSeg) :=
  match readOutput path ls with
  | .ok segs => .ok segs
  | .error e => .error (.readErr e)

/-- Wrap an Rdump-read result into the orchestrator's error type. -/
def readDataOrErr (ls : List String) : Except ConvErr (List (String × DataValue)) :=
  match readData ls with
  | .ok d => .ok d
  | .error e => .error (.dataErr e)

/-- Column names of a DataFrame. -/
def colsOf (df : SDf) : List String :=
  df.map SCol.name

/-- Select columns by name (df[cols] with a list of labels). -/
def sdfSelect (df : SDf) (names : List String) : SDf :=
  names.filterMap (fun n => df.find? (fun c => c.name = n))

/-- Posterior-predictive columns excluded from the posterior: none for a
.csv path, else the columns whose base name matches. -/
def ppFilterCols (columns : List String) (pp : Option NameArg) : List String :=
  match pp with
  | none => []
  | some (.strA s) =>
    if pyEndsWith (pyLower s) (".csv") then []
    else columns.filter (fun col => s = (pySplit (".") col).headD (""))
  | some (.listA l) =>
    columns.filter (fun col => l.any (fun item => item = (pySplit (".") col).headD ("")))

/-- Log-likelihood columns excluded from the posterior. -/
def llFilterCols (columns : List String) (ll : Option NameArg) : List String :=
  match ll with
  | none => []
  | some (.strA s) => columns.filter (fun col => s = (pySplit (".") col).headD (""))
  | some (.listA l) =>
    columns.filter (fun col => l.any (fun item => item = (pySplit (".") col).headD ("")))

/-- Model of `posterior_to_xarray`: guarded by requires('posterior'); filters
out posterior-predictive and log-likelihood columns and unpacks the rest. -/
def posteriorToXarray (c : Conv) : Except ConvErr (Option Dataset) :=
  match c.posterior with
  | none => .ok none
  | some dfs =>
    match dfs with
    | [] => .error .indexErr
    | df0 :: _ =>
      let columns := colsOf df0
      let dropped := ppFilterCols columns c.posterior_predictive ++
        llFilterCols columns c.log_likelihood
      let valid := columns.filter (fun col => ¬ dropped.contains col)
      match unpackOrErr (dfs.map (fun df => sdfSelect df valid)) with
      | .ok m => .ok (some (.tensors m))
      | .error e => .error e

/-- dtypes.get(key): the explicit bool/int64 casts of the stats columns;
astype(None) is a float64 cast (np.dtype(None) is float64). -/
def dtypesGet (key : String) : String :=
  if key = ("divergent__") then ("bool")
  else if key = ("n_leapfrog__") then ("int64")
  else if key = ("treedepth__") then ("int64")
  else ("float64")

/-- Truncate a decimal toward zero (astype int semantics). -/
def decTruncInt (v : Dec) : Int :=
  let mag : Nat :=
    match v.exp with
    | .ofNat e => v.mant * 10 ^ e
    | .negSucc e => v.mant / 10 ^ (e + 1)
  if v.sign then -(mag : Int) else (mag : Int)

/-- Value cast applied by astype for a given dtype tag. -/
def castVal (dtype : String) (v : Dec) : Dec :=
  if dtype = ("bool") then (if v.mant = 0 then decOfNat 0 else decOfNat 1)
  else if dtype = ("int64") then
    (let i := decTruncInt v
     mkDec (decide (i < 0)) i.natAbs 0)
  else v

/-- Join strings with dots (".".join). -/
def pyJoinDots (l : List String) : String :=
  match l with
  | [] => ("")
  | h :: t => t.foldl (fun acc s => acc ++ (".") ++ s) h

/-- Rename one stats column: strip one trailing double-underscore from the
base segment, rename divergent to diverging, re-join the index segments. -/
def renameStatsCol (key : String) : String :=
  match pySplit (".") key with
  | [] => key
  | k0 :: ends =>
    let name := if pyEndsWith k0 ("__") then (⟨k0.data.take (k0.data.length - 2)⟩ : String)
      else k0
    let name := if name = ("divergent") then ("diverging") else name
    pyJoinDots (name :: ends)

/-- The in-place dtype casts followed by the rename, as applied to each
stored stats DataFrame by `sample_stats_to_xarray`. -/
def castRenameDf (df : SDf) : SDf :=
  df.map (fun col =>
    ⟨renameStatsCol col.name, dtypesGet col.name, col.vals.map (castVal (dtypesGet col.name))⟩)

/-- Set or append a column of a DataFrame (df[name] = values). -/
def dfSetCol (df : SDf) (name : String) (vals : List Dec) : SDf :=
  if df.any (fun c => c.name = name) then
    df.map (fun c => if c.name = name then ⟨name, c.dtype, vals⟩ else c)
  else df ++ [⟨name, ("float64"), vals⟩]

/-- Resolve the log-likelihood argument inside `sample_stats_to_xarray`:
a string selects the matching posterior columns (silently dropped when no
posterior is stored); a list reaches the later loop with
log_likelihood_cols unbound, a NameError. -/
def statsLLCols (c : Conv) : Except ConvErr (Option (String × List String)) :=
  match c.log_likelihood with
  | none => .ok none
  | some (.strA s) =>
    match c.posterior with
    | none => .ok none
    | some [] => .error .indexErr
    | some (df0 :: _) =>
      .ok (some (s, (colsOf df0).filter (fun col => s = (pySplit (".") col).headD (""))))
  | some (.listA _) => .error .nameErr

/-- The mutation `sample_stats_to_xarray` applies to the stored stats tables:
append the renamed log-likelihood columns sliced from the posterior (when
requested), then cast dtypes in place and rename every column. -/
def statsMutate (c : Conv) (stats : List SDf) : Except ConvErr (List SDf) := do
  let llres ← statsLLCols c
  let stats2 := match llres with
    | some sl =>
      stats.mapIdx (fun i df =>
        sl.2.foldl (fun d col =>
          dfSetCol d (pyReplace sl.1 ("log_likelihood") col)
            ((dfLookup ((c.posterior.getD []).getD i []) col).getD [])) df)
    | none => stats
  .ok (stats2.map castRenameDf)

/-- Model of `sample_stats_to_xarray`: guarded by requires('sample_stats');
note sampler_params aliases self.sample_stats, so the casts, renames and
appended log-likelihood columns are stored back into the converter state. -/
def sampleStatsToXarray (c : Conv) : Except ConvErr (Conv × Option Dataset) :=
  match c.sample_stats with
  | none => .ok (c, none)
  | some stats => do
    let stats3 ← statsMutate c stats
    let data ← unpackOrErr stats3
    .ok ({c with sample_stats := some stats3}, some (.tensors data))

/-- Parse one chain's sample table into a DataFrame of floats. -/
def chainToSDf (cols : List String) (rows : List (List String)) : SDf :=
  (cols.enum).map (fun q =>
    ⟨q.2, ("float64"), rows.map (fun r => (pyFloat (r.getD q.1 (""))).getD (decOfNat 0))⟩)

/-- Model of `posterior_predictive_to_xarray`: guarded by
requires('posterior') and requires('posterior_predictive'); a .csv argument
is read as output files (note the source iterates a plain string
character-by-character in that branch), otherwise the named columns are
sliced out of the posterior. -/
def ppToXarray (c : Conv) : Except ConvErr (Option Dataset) :=
  match c.posterior, c.posterior_predictive with
  | none, _ => .ok none
  | some _, none => .ok none
  | some post, some pp => do
    let iscsv ← match pp with
      | .listA [] => Except.error ConvErr.indexErr
      | .listA (p0 :: _) => Except.ok (pyEndsWith p0 (".csv"))
      | .strA s => Except.ok (pyEndsWith s (".csv"))
    if iscsv then do
      let paths := match pp with
        | .strA s => s.data.map (fun ch => String.mk [ch])
        | .listA l => l
      let chains ← paths.foldlM (fun acc path => do
          let segs ← readOutputOrErr path (c.env path)
          Except.ok (acc ++ segs.map (fun s => chainToSDf s.sampleCols s.sampleRows))) []
      let m ← unpackOrErr chains
      Except.ok (some (Dataset.tensors m))
    else do
      let ppl := match pp with
        | .strA s => [s]
        | .listA l => l
      match post with
      | [] => Except.error ConvErr.indexErr
      | df0 :: _ =>
        let cols := (colsOf df0).filter
          (fun col => ppl.any (fun item => item = (pySplit (".") col).headD ("")))
        let m ← unpackOrErr (post.map (fun df => sdfSelect df cols))
        Except.ok (some (Dataset.tensors m))

/-- Model of `prior_to_xarray`: guarded by requires('posterior') and
requires('prior'); reads every prior path as an output file (the source
iterates a plain string character-by-character, as with
posterior_predictive). -/
def priorToXarray (c : Conv) : Except ConvErr (Option Dataset) :=
  match c.posterior, c.prior with
  | none, _ => .ok none
  | some _, none => .ok none
  | some _, some pr => do
    let paths := match pr with
      | .strA s => s.data.map (fun ch => String.mk [ch])
      | .listA l => l
    let chains ← paths.foldlM (fun acc path => do
        let segs ← readOutputOrErr path (c.env path)
        Except.ok (acc ++ segs.map (fun s => chainToSDf s.sampleCols s.sampleRows))) []
    let m ← unpackOrErr chains
    Except.ok (some (Dataset.tensors m))

/-- Model of `observed_data_to_xarray`: guarded by requires('posterior') and
requires('observed_data'); parses the Rdump file and filters to the requested
variables (the external DataArray wrapping is opaque, see Dataset). -/
def observedToXarray (c : Conv) : Except ConvErr (Option Dataset) :=
  match c.posterior, c.observed_data with
  | none, _ => .ok none
  | some _, none => .ok none
  | some _, some path => do
    let raw ← readDataOrErr (c.env path)
    let vars : Option (List String) := match c.observed_data_var with
      | none => none
      | some (.strA s) => some [s]
      | some (.listA l) => some l
    let kept := raw.filter (fun kv =>
      match vars with
      | none => true
      | some vs => vs.contains kv.1)
    .ok (some (.observed kept))

/-- Modelled from the spec: the InferenceData constructor keeps exactly the
groups whose dataset is present, omitting the None ones. -/
def mkGroups (p ss pp pr od : Option Dataset) : List (String × Dataset) :=
  ([(("posterior"), p), (("sample_stats"), ss), (("posterior_predictive"), pp),
    (("prior"), pr), (("observed_data"), od)] : List (String × Option Dataset)).filterMap
    (fun g => g.2.map (fun d => (g.1, d)))

/-- Model of `to_inference_data`: evaluate the five extractors in source
order (the posterior first, then sample-stats — whose mutation of the stored
tables is threaded into the state seen by the later extractors) and build
the named collection. -/
def toInferenceData (c : Conv) : Except ConvErr (List (String × Dataset)) := do
  let p ← posteriorToXarray c
  let sres ← sampleStatsToXarray c
  let pp ← ppToXarray sres.1
  let pr ← priorToXarray sres.1
  let od ← observedToXarray sres.1
  .ok (mkGroups p sres.2 pp pr od)

/-- Converter state fixture with no posterior-predictive argument. -/
def convNoPP : Conv :=
  ⟨none, none, none, none, none, none, none, fun _ => []⟩

/-- Converter state fixture holding one stats table with a divergent__
column. -/
def statsConvEx : Conv :=
  ⟨none, some [[⟨("divergent__"), ("float64"), [decOfNat 0]⟩]], none, none, none, none, none,
    fun _ => []⟩

theorem confStep_no_thin (st : ConfSt) (l : String)
    (h1 : pyStartsWith (pyStrip (pyStripChars ("#") l)) ("thin") = false)
    (h2 : confLineOk l = true) :
    ∃ st' : ConfSt, confStep st l = .ok st' ∧ st'.2.2.2 = st.2.2.2 := by
  unfold confStep
  unfold confLineOk at h2
  by_cases hns : pyStartsWith (pyStrip (pyStripChars ("#") l)) ("num_samples") = true
  · simp only [hns, if_true] at h2 ⊢
    rcases ho : pyInt (pyStripChars ("(Default)")
        (pyStripChars ("num_samples = ") (pyStrip (pyStripChars ("#") l)))) with _ | v
    · rw [ho] at h2; simp at h2
    · exact ⟨_, rfl, rfl⟩
  · simp only [hns, if_false, Bool.false_eq_true] at h2 ⊢
    by_cases hnw : pyStartsWith (pyStrip (pyStripChars ("#") l)) ("num_warmup") = true
    · simp only [hnw, if_true] at h2 ⊢
      rcases ho : pyInt (pyStripChars ("(Default)")
          (pyStripChars ("num_warmup = ") (pyStrip (pyStripChars ("#") l)))) with _ | v
      · rw [ho] at h2; simp at h2
      · exact ⟨_, rfl, rfl⟩
    · simp only [hnw, if_false, Bool.false_eq_true] at h2 ⊢
      by_cases hsw : pyStartsWith (pyStrip (pyStripChars ("#") l)) ("save_warmup") = true
      · simp only [hsw, if_true] at h2 ⊢
        rcases ho : pyInt (pyStripChars ("(Default)")
            (pyStripChars ("save_warmup = ") (pyStrip (pyStripChars ("#") l)))) with _ | v
        · rw [ho] at h2; simp at h2
        · exact ⟨_, rfl, rfl⟩
      · simp only [hsw, if_false, Bool.false_eq_true] at h2 ⊢
        simp only [h1, Bool.false_eq_true, if_false]
        exact ⟨st, rfl, rfl⟩

theorem confFold_thin_none (comments : List String)
    (h1 : ∀ l ∈ comments, pyStartsWith (pyStrip (pyStripChars ("#") l)) ("thin") = false)
    (h2 : ∀ l ∈ comments, confLineOk l = true) :
    ∀ a : Option Int × Option Int × Option Bool,
    ∃ st' : ConfSt,
      comments.foldlM confStep ((a.1, a.2.1, a.2.2, none) : ConfSt) = .ok st' ∧
      st'.2.2.2 = none := by
  induction comments with
  | nil => intro a; exact ⟨_, rfl, rfl⟩
  | cons l rest ih =>
    intro a
    obtain ⟨st', hst', hthin⟩ :=
      confStep_no_thin (a.1, a.2.1, a.2.2, none) l
        (h1 l (List.mem_cons_self l rest)) (h2 l (List.mem_cons_self l rest))
    have hrec := ih (fun x hx => h1 x (List.mem_cons_of_mem l hx))
      (fun x hx => h2 x (List.mem_cons_of_mem l hx))
      (st'.1, st'.2.1, st'.2.2.1)
    obtain ⟨stf, hstf, hf⟩ := hrec
    refine ⟨stf, ?_, hf⟩
    simp only [List.foldlM_cons, hst']
    have hrepr : st' = (st'.1, st'.2.1, st'.2.2.1, none) := by
      obtain ⟨x, y, z, w⟩ := st'
      simp only at hthin
      simp [hthin]
    rw [hrepr]
    exact hstf

/-- C1 counterexample: in the comment block ["num_samples = x"] no line starts
with thin, yet parsing fails with the int() ValueError on the num_samples line
(badInt), not with the MissingField (missingThin) failure the claim requires
for every such block. -/
theorem C1_counterexample :
    (∀ l ∈ [("num_samples = x")],
      pyStartsWith (pyStrip (pyStripChars ("#") l)) ("thin") = false) ∧
    processConfiguration [("num_samples = x")] = .error (.badInt ("num_samples")) ∧
    processConfiguration [("num_samples = x")] ≠ .error .missingThin := by
  refine ⟨by decide, by decide, by decide⟩

/-- C1 (amended): for every comment-header block in which no line starts with
thin and every recognized field line carries a well-formed integer value,
parsing fails with the MissingField (missingThin) error — no default and no
carried-over value is supplied; the function is pure, so the other three
fields are re-derived from the given block alone. -/
theorem C1_thin_missing_fails (comments : List String)
    (h1 : ∀ l ∈ comments, pyStartsWith (pyStrip (pyStripChars ("#") l)) ("thin") = false)
    (h2 : ∀ l ∈ comments, confLineOk l = true) :
    processConfiguration comments = .error .missingThin := by
  obtain ⟨st', hst', hthin⟩ := confFold_thin_none comments h1 h2 (none, none, none)
  unfold processConfiguration
  simp only [bind, Except.bind, hst']
  obtain ⟨x, y, z, w⟩ := st'
  simp only at hthin
  simp [hthin]

/-- C1 witness: a concrete block with num_samples but no thin line parses to
the missingThin error. -/
theorem C1_witness :
    (∀ l ∈ [("# num_samples = 1000"), ("# num_warmup = 500")],
      pyStartsWith (pyStrip (pyStripChars ("#") l)) ("thin") = false) ∧
    processConfiguration [("# num_samples = 1000"), ("# num_warmup = 500")] =
      .error .missingThin :=
  ⟨by decide, C1_thin_missing_fails _ (by decide) (by decide)⟩

/-- C4 counterexample: on the exact input quoted by the claim, the source's
comma-removal (str.replace(",", "") before splitting on whitespace) fuses the
digits into the single token 1234 and the dimensions into 22, so np.reshape
fails with a ValueError (badDims); the statement does not parse to a 2x2
array. -/
theorem C4_counterexample :
    processDataVar ("foo <- structure(c(1,2,3,4), .Dim=c(2,2))") = .error .badDims ∧
    ∀ v : String × DataValue,
      processDataVar ("foo <- structure(c(1,2,3,4), .Dim=c(2,2))") ≠ .ok v := by
  refine ⟨by decide, fun v h => ?_⟩
  rw [(by decide :
    processDataVar ("foo <- structure(c(1,2,3,4), .Dim=c(2,2))") = .error .badDims)] at h
  exact Except.noConfusion h

/-- C4 (amended): in the whitespace-separated dump dialect the source actually
handles, "foo <- structure(c(1, 2, 3, 4), .Dim = c(2, 2))" parses under key
foo to the 2x2 array with flat column-major data [1,2,3,4], i.e. the array
[[1,3],[2,4]]; "bar <- c(1,2,3)" parses to the 1-D array [1,2,3] and
"baz <- 5" to the scalar 5.0, all values parsed as floating point. -/
theorem C4_flat_data_statements :
    processDataVar ("foo <- structure(c(1, 2, 3, 4), .Dim = c(2, 2))") =
      .ok (("foo"), .arr [2, 2] (List.map decOfNat [1, 2, 3, 4])) ∧
    arrGet [2, 2] (List.map decOfNat [1, 2, 3, 4]) [0, 0] = some (decOfNat 1) ∧
    arrGet [2, 2] (List.map decOfNat [1, 2, 3, 4]) [0, 1] = some (decOfNat 3) ∧
    arrGet [2, 2] (List.map decOfNat [1, 2, 3, 4]) [1, 0] = some (decOfNat 2) ∧
    arrGet [2, 2] (List.map decOfNat [1, 2, 3, 4]) [1, 1] = some (decOfNat 4) ∧
    processDataVar ("bar <- c(1,2,3)") = .ok (("bar"), .vector (List.map decOfNat [1, 2, 3])) ∧
    processDataVar ("baz <- 5") = .ok (("baz"), .scalar (decOfNat 5)) := by
  decide

theorem processDataVar_nil (v : String) (h : v.data = []) :
    processDataVar v = .error .unpackMismatch := by
  obtain ⟨l⟩ := v
  simp only at h
  subst h
  decide

theorem insertKV_keys_self (data : List (String × DataValue)) (k : String) (v : DataValue) :
    k ∈ (insertKV data k v).map Prod.fst := by
  unfold insertKV
  by_cases h : data.any (fun p => p.1 = k) = true
  · simp only [h, if_true, List.map_map]
    rcases List.any_eq_true.mp h with ⟨p, hp, hpk⟩
    simp only [decide_eq_true_eq] at hpk
    refine List.mem_map.mpr ⟨p, hp, ?_⟩
    simp [Function.comp, hpk]
  · simp only [h, if_false]
    simp

theorem insertKV_keys_mono (data : List (String × DataValue)) (k : String) (v : DataValue)
    (a : String) (h : a ∈ data.map Prod.fst) : a ∈ (insertKV data k v).map Prod.fst := by
  unfold insertKV
  by_cases hc : data.any (fun p => p.1 = k) = true
  · simp only [hc, if_true, List.map_map]
    rcases List.mem_map.mp h with ⟨p, hp, hpa⟩
    refine List.mem_map.mpr ⟨p, hp, ?_⟩
    by_cases hpk : p.1 = k
    · simp only [Function.comp, hpk, if_true]
      rw [← hpa, hpk]
    · simp only [Function.comp, hpk, if_false]
      exact hpa
  · simp only [hc, Bool.false_eq_true, if_false, List.map_append]
    exact List.mem_append_left _ h

theorem readDataFrom_cons (data : List (String × DataValue)) (var : String) (s : String)
    (rest : List String) (d' : List (String × DataValue)) (v' : String)
    (h : readDataStep (data, var) s = .ok (d', v')) :
    readDataFrom data var (s :: rest) = readDataFrom d' v' rest := by
  unfold readDataFrom
  simp only [List.foldlM_cons, h]
  rfl

theorem readDataFrom_keys (sts : List String)
    (hS : ∀ s ∈ sts, pyIn ("<-") s = true ∧
      ∃ kv : String × DataValue, processDataVar ((" ") ++ pyStrip s) = .ok kv) :
    ∀ data var,
      (var.data = [] ∨ ∃ kv : String × DataValue, processDataVar var = .ok kv) →
      ∃ d, readDataFrom data var sts = .ok d ∧
        (∀ a, a ∈ data.map Prod.fst → a ∈ d.map Prod.fst) ∧
        (∀ kv : String × DataValue, processDataVar var = .ok kv → kv.1 ∈ d.map Prod.fst) ∧
        (∀ s ∈ sts, ∀ kv : String × DataValue,
          processDataVar ((" ") ++ pyStrip s) = .ok kv → kv.1 ∈ d.map Prod.fst) := by
  induction sts with
  | nil =>
    intro data var hvar
    by_cases hv : var.data = []
    · refine ⟨data, ?_, fun a ha => ha, ?_, by simp⟩
      · unfold readDataFrom
        simp [hv]
      · intro kv hkv
        rw [processDataVar_nil var hv] at hkv
        exact Except.noConfusion hkv
    · rcases hvar with hvar | ⟨kv0, hkv0⟩
      · exact absurd hvar hv
      refine ⟨insertKV data kv0.1 kv0.2, ?_, ?_, ?_, by simp⟩
      · unfold readDataFrom
        simp [hv, hkv0]
        rfl
      · intro a ha
        exact insertKV_keys_mono data kv0.1 kv0.2 a ha
      · intro kv hkv
        rw [hkv0] at hkv
        cases hkv
        exact insertKV_keys_self data kv0.1 kv0.2
  | cons s rest ih =>
    intro data var hvar
    obtain ⟨hin, kvS, hkvS⟩ := hS s (List.mem_cons_self s rest)
    have hSrest : ∀ x ∈ rest, pyIn ("<-") x = true ∧
        ∃ kv : String × DataValue, processDataVar ((" ") ++ pyStrip x) = .ok kv :=
      fun x hx => hS x (List.mem_cons_of_mem s hx)
    by_cases hv : var.data = []
    · have hstep : readDataStep (data, var) s = .ok (data, (" ") ++ pyStrip s) := by
        unfold readDataStep
        simp [hin, hv]
      obtain ⟨d, hd, hmono, hvarkey, hrest⟩ :=
        ih hSrest data ((" ") ++ pyStrip s) (Or.inr ⟨kvS, hkvS⟩)
      refine ⟨d, ?_, hmono, ?_, ?_⟩
      · rw [readDataFrom_cons data var s rest data ((" ") ++ pyStrip s) hstep]
        exact hd
      · intro kv hkv
        rw [processDataVar_nil var hv] at hkv
        exact Except.noConfusion hkv
      · intro x hx kv hkv
        rcases List.mem_cons.mp hx with hx | hx
        · subst hx
          exact hvarkey kv hkv
        · exact hrest x hx kv hkv
    · rcases hvar with hvar | ⟨kv0, hkv0⟩
      · exact absurd hvar hv
      have hstep : readDataStep (data, var) s =
          .ok (insertKV data kv0.1 kv0.2, (" ") ++ pyStrip s) := by
        unfold readDataStep
        simp [hin, hv, hkv0]
        rfl
      obtain ⟨d, hd, hmono, hvarkey, hrest⟩ :=
        ih hSrest (insertKV data kv0.1 kv0.2) ((" ") ++ pyStrip s) (Or.inr ⟨kvS, hkvS⟩)
      refine ⟨d, ?_, ?_, ?_, ?_⟩
      · rw [readDataFrom_cons data var s rest _ _ hstep]
        exact hd
      · intro a ha
        exact hmono a (insertKV_keys_mono data kv0.1 kv0.2 a ha)
      · intro kv hkv
        rw [hkv0] at hkv
        cases hkv
        exact hmono kv0.1 (insertKV_keys_self data kv0.1 kv0.2)
      · intro x hx kv hkv
        rcases List.mem_cons.mp hx with hx | hx
        · subst hx
          exact hvarkey kv hkv
        · exact hrest x hx kv hkv

/-- C10 (amended): the flat-data reader flushes and parses the last
accumulated statement at end of input, so a file of one well-formed statement
per line yields every statement's key (including the last one) in the
resulting mapping, and an empty input yields an empty mapping.  (A non-empty
input with no assignment marker does not yield an empty mapping: the final
flush fails on the marker-less accumulated text, see the counterexample.) -/
theorem C10_last_statement_flushed (sts : List String)
    (hS : ∀ s ∈ sts, pyIn ("<-") s = true ∧
      ∃ kv : String × DataValue, processDataVar ((" ") ++ pyStrip s) = .ok kv) :
    (∃ d, readData sts = .ok d ∧
      ∀ s ∈ sts, ∀ kv : String × DataValue,
        processDataVar ((" ") ++ pyStrip s) = .ok kv → kv.1 ∈ d.map Prod.fst) ∧
    readData ([] : List String) = .ok [] := by
  constructor
  · obtain ⟨d, h1, _, _, h4⟩ := readDataFrom_keys sts hS [] ("") (Or.inl rfl)
    exact ⟨d, h1, h4⟩
  · decide

/-- C10 witness: a two-statement file yields both keys; in particular the
final statement, which is not followed by any further assignment marker, is
flushed at end of input. -/
theorem C10_witness :
    ∃ d, readData [("a <- 1"), ("b <- 2")] = .ok d ∧
      ∀ s ∈ [("a <- 1"), ("b <- 2")], ∀ kv : String × DataValue,
        processDataVar ((" ") ++ pyStrip s) = .ok kv → kv.1 ∈ d.map Prod.fst :=
  (C10_last_statement_flushed [("a <- 1"), ("b <- 2")] (fun s hs => by
    rcases List.mem_cons.mp hs with h | h
    · subst h
      exact ⟨by decide, ⟨(("a"), .scalar (decOfNat 1)), by decide⟩⟩
    · rcases List.mem_cons.mp h with h | h
      · subst h
        exact ⟨by decide, ⟨(("b"), .scalar (decOfNat 2)), by decide⟩⟩
      · exact absurd h (List.not_mem_nil s))).1

/-- C10 counterexample: the input consisting of the single line "5" contains
no assignment marker, yet the reader does not return an empty mapping — the
end-of-input flush tries to parse the accumulated text " 5" and fails with
the unpack ValueError of `key, var = string.split("<-")`. -/
theorem C10_counterexample :
    pyIn ("<-") ("5") = false ∧
    readData [("5")] = .error .unpackMismatch ∧
    readData [("5")] ≠ .ok [] := by
  decide

/-- C3: a VariableTensor built from one chain-table of 2 rows with columns
x.1 = [a,b] and x.2 = [c,d] has shape (1,2,2) with slice [0,0,:] = [a,c] and
[0,1,:] = [b,d]; and (normalization/dims generalization, shown on a 2-axis
group) each column's 1-based dotted suffix is normalized to a 0-based
multi-index, dims is the per-axis maximum of (index+1) over the group, and
each column fills the (chain, :, *multi_index) slice. -/
theorem C3_roundtrip_reconstruction :
    (∀ a b c d : Dec,
      ∃ t : Tensor,
        unpackDataframes
          [[⟨("x.1"), ("float64"), [a, b]⟩, ⟨("x.2"), ("float64"), [c, d]⟩]] =
          .ok [(("x"), t)] ∧
        t.chains = 1 ∧ t.draws = 2 ∧ t.dims = [2] ∧
        t.val 0 0 [0] = some a ∧ t.val 0 0 [1] = some c ∧
        t.val 0 1 [0] = some b ∧ t.val 0 1 [1] = some d) ∧
    (∀ v11 v12 v13 v21 v22 v23 : Dec,
      ∃ t : Tensor,
        unpackDataframes
          [[⟨("y.1.1"), ("float64"), [v11]⟩, ⟨("y.1.2"), ("float64"), [v12]⟩,
            ⟨("y.1.3"), ("float64"), [v13]⟩, ⟨("y.2.1"), ("float64"), [v21]⟩,
            ⟨("y.2.2"), ("float64"), [v22]⟩, ⟨("y.2.3"), ("float64"), [v23]⟩]] =
          .ok [(("y"), t)] ∧
        t.chains = 1 ∧ t.draws = 1 ∧ t.dims = [2, 3] ∧
        t.val 0 0 [0, 0] = some v11 ∧ t.val 0 0 [0, 1] = some v12 ∧
        t.val 0 0 [0, 2] = some v13 ∧ t.val 0 0 [1, 0] = some v21 ∧
        t.val 0 0 [1, 1] = some v22 ∧ t.val 0 0 [1, 2] = some v23) := by
  constructor
  · intro a b c d
    exact ⟨_, rfl, rfl, rfl, rfl, rfl, rfl, rfl, rfl⟩
  · intro v11 v12 v13 v21 v22 v23
    exact ⟨_, rfl, rfl, rfl, rfl, rfl, rfl, rfl, rfl, rfl, rfl⟩

theorem writeColChains_spec (col : String) (loc : List Int) :
    ∀ (dfs : List SDf) (cid : Nat) (t : Tensor),
      (∀ df ∈ dfs, ∃ vs, dfLookup df col = some vs ∧ vs.length = t.draws) →
      ∃ t', writeColChains col loc dfs cid t = .ok t' ∧
        t'.chains = t.chains ∧ t'.draws = t.draws ∧ t'.dims = t.dims ∧
        (∀ c d l, l ≠ loc → t'.val c d l = t.val c d l) ∧
        (∀ c d, c < cid → t'.val c d loc = t.val c d loc) ∧
        (∀ i d, ∀ hi : i < dfs.length, ∀ vs, dfLookup (dfs.get ⟨i, hi⟩) col = some vs →
          t'.val (cid + i) d loc = vs[d]?) := by
  intro dfs
  induction dfs with
  | nil =>
    intro cid t _
    refine ⟨t, rfl, rfl, rfl, rfl, fun _ _ _ _ => rfl, fun _ _ _ => rfl, ?_⟩
    intro i d hi
    exact absurd hi (by simp)
  | cons df rest ih =>
    intro cid t h
    obtain ⟨vs, hvs, hlen⟩ := h df (List.mem_cons_self df rest)
    obtain ⟨t', hw, hch, hdr, hdm, hne, hlt, hidx⟩ :=
      ih (cid + 1) (updateChainSlice t cid loc vs)
        (fun x hx => h x (List.mem_cons_of_mem df hx))
    refine ⟨t', ?_, hch, hdr, hdm, ?_, ?_, ?_⟩
    · simp only [writeColChains, hvs]
      rw [if_pos hlen]
      exact hw
    · intro c d l hl
      rw [hne c d l hl]
      simp [updateChainSlice, hl]
    · intro c d hc
      rw [hlt c d (Nat.lt_succ_of_lt hc)]
      have hcne : ¬(c = cid) := Nat.ne_of_lt hc
      simp [updateChainSlice, hcne]
    · intro i d hi vs' hvs'
      match i with
      | 0 =>
        simp only [List.get] at hvs'
        rw [hvs] at hvs'
        cases hvs'
        rw [Nat.add_zero]
        rw [hlt cid d (Nat.lt_succ_self cid)]
        simp [updateChainSlice]
      | j + 1 =>
        have hj : j < rest.length := by
          simp only [List.length_cons] at hi
          omega
        have harith : cid + (j + 1) = (cid + 1) + j := by omega
        rw [harith]
        exact hidx j d hj vs' hvs'

theorem getLast?_of_all_eq {α : Type} (l : List α) (a : α) (hne : l ≠ [])
    (hall : ∀ x ∈ l, x = a) : l.getLast? = some a := by
  induction l with
  | nil => exact absurd rfl hne
  | cons x xs ih =>
    match xs, ih with
    | [], _ =>
      rw [hall x (List.mem_cons_self x [])]
      rfl
    | y :: ys, ih =>
      rw [List.getLast?_cons_cons]
      exact ih (by simp) (fun z hz => hall z (List.mem_cons_of_mem x hz))

theorem buildFold_spec (dfs : List SDf) (draws : Nat) :
    ∀ colsLocs : List (String × List Int),
      (∀ cl ∈ colsLocs, ∀ df ∈ dfs, ∃ vs, dfLookup df cl.1 = some vs ∧ vs.length = draws) →
      ∀ t0 : Tensor, t0.draws = draws →
      ∃ t', colsLocs.foldlM (fun t cl => writeColChains cl.1 cl.2 dfs 0 t) t0 = .ok t' ∧
        t'.chains = t0.chains ∧ t'.draws = t0.draws ∧ t'.dims = t0.dims ∧
        (∀ c d l, lastAddr colsLocs l = none → t'.val c d l = t0.val c d l) ∧
        (∀ c d l cl, c < dfs.length → lastAddr colsLocs l = some cl →
          ∀ vs, colVals dfs c cl.1 = some vs → t'.val c d l = vs[d]?) := by
  intro colsLocs
  induction colsLocs with
  | nil =>
    intro _ t0 _
    refine ⟨t0, rfl, rfl, rfl, rfl, fun _ _ _ _ => rfl, ?_⟩
    intro c d l cl _ hcl
    exact absurd hcl (by simp [lastAddr])
  | cons cl0 rest ih =>
    intro hcols t0 ht0
    -- write the head column
    obtain ⟨t1, hw1, hch1, hdr1, hdm1, hne1, _, hidx1⟩ :=
      writeColChains_spec cl0.1 cl0.2 dfs 0 t0
        (fun df hdf => by
          obtain ⟨vs, hvs, hlen⟩ := hcols cl0 (List.mem_cons_self cl0 rest) df hdf
          exact ⟨vs, hvs, by rw [hlen, ht0]⟩)
    obtain ⟨t', hw', hch', hdr', hdm', hnone', hsome'⟩ :=
      ih (fun cl hcl df hdf => hcols cl (List.mem_cons_of_mem cl0 hcl) df hdf) t1
        (by rw [hdr1, ht0])
    refine ⟨t', ?_, by rw [hch', hch1], by rw [hdr', hdr1], by rw [hdm', hdm1], ?_, ?_⟩
    · simp only [List.foldlM_cons, hw1]
      exact hw'
    · -- no column of cl0 :: rest addresses l
      intro c d l hlast
      unfold lastAddr at hlast
      simp only [List.filter_cons] at hlast
      by_cases h0 : cl0.2 = l
      · simp [h0, List.getLast?_eq_none_iff] at hlast
      · simp only [h0, decide_False, Bool.false_eq_true, if_false] at hlast
        rw [hnone' c d l hlast]
        exact hne1 c d l (fun he => h0 (he ▸ rfl))
    · -- the last column addressing l is cl
      intro c d l cl hc hlast vs hvs
      unfold lastAddr at hlast
      simp only [List.filter_cons] at hlast
      rcases hfr : rest.filter (fun x => x.2 = l) with _ | ⟨y, ys⟩
      · -- no column of rest addresses l: the head must, and cl = cl0
        rw [hfr] at hlast
        by_cases h0 : cl0.2 = l
        · simp only [h0, decide_True, if_true] at hlast
          simp only [List.getLast?] at hlast
          cases hlast
          have hrestnone : lastAddr rest l = none := by
            unfold lastAddr
            rw [hfr]
            rfl
          rw [hnone' c d l hrestnone]
          subst h0
          obtain ⟨df, hdf⟩ : ∃ df, dfs[c]? = some df := by
            rw [List.getElem?_eq_getElem hc]
            exact ⟨_, rfl⟩
          have hget : dfs.get ⟨c, hc⟩ = df := by
            rw [List.getElem?_eq_getElem hc] at hdf
            cases hdf
            rfl
          unfold colVals at hvs
          rw [hdf] at hvs
          have := hidx1 c d hc vs (by rw [hget]; exact hvs)
          rw [Nat.zero_add] at this
          exact this
        · simp only [h0, decide_False, Bool.false_eq_true, if_false] at hlast
          exact absurd hlast (by simp)
      · -- some column of rest addresses l: its last write wins
        rw [hfr] at hlast
        have hrest : lastAddr rest l = some cl := by
          unfold lastAddr
          rw [hfr]
          by_cases h0 : cl0.2 = l
          · simp only [h0, decide_True, if_true] at hlast
            rw [List.getLast?_cons_cons] at hlast
            exact hlast
          · simp only [h0, decide_False, Bool.false_eq_true, if_false] at hlast
            exact hlast
        exact hsome' c d l cl hc hrest vs hvs

/-- C7 (amended): in the reconstructor every addressed cell holds the value
of the last column of its base-name group that addresses it.  When every
multi-index is addressed by a unique column (well-formed input), each
addressed cell is written exactly once and holds its column's values; but
when two distinct columns of the same base name address the same multi-index,
reconstruction does not fail with any error — the later column's chain-loop
silently overwrites the earlier column's values (shown for columns x.1 and
x.01, which both normalize to index 0). -/
theorem C7_overwrite_last_write_wins :
    (∀ (chains draws : Nat) (dfs : List SDf) (key : String)
        (colsLocs : List (String × List Int)),
      (∀ cl ∈ colsLocs, ∀ df ∈ dfs, ∃ vs, dfLookup df cl.1 = some vs ∧ vs.length = draws) →
      allSameLen (colsLocs.map Prod.snd) = true →
      (∀ cl ∈ colsLocs, ∀ cl' ∈ colsLocs, cl'.2 = cl.2 → cl' = cl) →
      ∃ t, buildGroup chains draws dfs key colsLocs = .ok t ∧
        ∀ cl ∈ colsLocs, ∀ c d : Nat, c < dfs.length →
          ∀ vs, colVals dfs c cl.1 = some vs → t.val c d cl.2 = vs[d]?) ∧
    (∀ one two : Dec,
      ∃ t, unpackDataframes
          [[⟨("x.1"), ("float64"), [one]⟩, ⟨("x.01"), ("float64"), [two]⟩]] =
          .ok [(("x"), t)] ∧
        t.val 0 0 [0] = some two) := by
  constructor
  · intro chains draws dfs key colsLocs hcols hsame hdist
    obtain ⟨t, hfold, _, _, _, _, hsome⟩ :=
      buildFold_spec dfs draws colsLocs hcols
        ⟨chains, draws, (eltMaxLocs (colsLocs.map Prod.snd)).map (fun i => i + 1),
          fun _ _ _ => none⟩ rfl
    refine ⟨t, ?_, ?_⟩
    · unfold buildGroup
      rw [if_pos hsame]
      exact hfold
    · intro cl hcl c d hc vs hvs
      have hlast : lastAddr colsLocs cl.2 = some cl := by
        unfold lastAddr
        apply getLast?_of_all_eq
        · have hmem : cl ∈ colsLocs.filter (fun x => x.2 = cl.2) :=
            List.mem_filter.mpr ⟨hcl, by simp⟩
          intro hev
          rw [hev] at hmem
          exact List.not_mem_nil cl hmem
        · intro x hx
          have hx' := List.mem_filter.mp hx
          exact hdist cl hcl x hx'.1 (by simpa using hx'.2)
      exact hsome c d cl.2 cl hc hlast vs hvs
  · intro one two
    exact ⟨_, rfl, rfl⟩

/-- C7 witness: the general write-once part applied to a one-column group. -/
theorem C7_witness :
    ∃ t, buildGroup 1 1 [[⟨("x.1"), ("float64"), [decOfNat 7]⟩]] ("x")
        [(("x.1"), ([0] : List Int))] = .ok t ∧
      ∀ cl ∈ [((("x.1") : String), ([0] : List Int))], ∀ c d : Nat,
        c < ([[(⟨("x.1"), ("float64"), [decOfNat 7]⟩ : SCol)]] : List SDf).length →
        ∀ vs, colVals [[⟨("x.1"), ("float64"), [decOfNat 7]⟩]] c cl.1 = some vs →
          t.val c d cl.2 = vs[d]? := by
  apply C7_overwrite_last_write_wins.1 1 1 _ ("x")
  · intro cl hcl df hdf
    rcases List.mem_cons.mp hcl with h | h
    · subst h
      rcases List.mem_cons.mp hdf with h2 | h2
      · subst h2
        exact ⟨[decOfNat 7], rfl, rfl⟩
      · exact absurd h2 (List.not_mem_nil df)
    · exact absurd h (List.not_mem_nil cl)
  · decide
  · decide

/-- C7 counterexample: the two distinct columns x.1 and x.01 share base name
x and both normalize to multi-index 0; reconstruction succeeds (no
ShapeMismatch or any other failure) and the later column's value 2 silently
overwrites the earlier column's value 1. -/
theorem C7_counterexample :
    ∃ t, unpackDataframes
        [[⟨("x.1"), ("float64"), [decOfNat 1]⟩, ⟨("x.01"), ("float64"), [decOfNat 2]⟩]] =
        .ok [(("x"), t)] ∧
      t.val 0 0 [0] = some (decOfNat 2) ∧
      some (decOfNat 2) ≠ some (decOfNat 1) :=
  ⟨_, rfl, rfl, by decide⟩

theorem strShape (t : String) (h : t.data = [] ∨ pyStartsWith t ("#") = true) :
    t = ⟨[]⟩ ∨ ∃ r, t = ⟨'#' :: r⟩ := by
  obtain ⟨l⟩ := t
  rcases h with h | h
  · simp only at h
    subst h
    exact Or.inl rfl
  · right
    match l, h with
    | '#' :: r, _ => exact ⟨r, rfl⟩
    | [], h => exact absurd h (by decide)
    | c :: r, h =>
      refine ⟨r, ?_⟩
      unfold pyStartsWith at h
      simp only [List.isPrefixOf, Bool.and_true] at h
      have hc : '#' = c := beq_iff_eq.mp (by simpa using h)
      rw [← hc]

theorem strShapeHash (t : String) (h : pyStartsWith t ("#") = true) :
    ∃ r, t = ⟨'#' :: r⟩ :=
  (strShape t (Or.inr h)).resolve_left (by
    intro he
    rw [he] at h
    exact absurd h (by decide))

/-- C6 (amended): for the first sub-table, timing_info is recovered by
reading exactly the 5-line window immediately following the last data row and
collecting every non-empty line in it; a blank line does not stop the
collection (the loop has no break), so a non-empty line occurring after a
blank line within the window IS included.  Shown for a single-chain file with
an arbitrary window of comment or blank lines. -/
theorem C6_timing_window_no_break (t1 t2 t3 t4 t5 : String)
    (h1 : t1.data = [] ∨ pyStartsWith t1 ("#") = true)
    (h2 : t2.data = [] ∨ pyStartsWith t2 ("#") = true)
    (h3 : t3.data = [] ∨ pyStartsWith t3 ("#") = true)
    (h4 : t4.data = [] ∨ pyStartsWith t4 ("#") = true)
    (h5 : t5.data = [] ∨ pyStartsWith t5 ("#") = true) :
    readOutput ("p")
      [("# num_samples = 2"), ("# num_warmup = 1"), ("# save_warmup = 0"), ("# thin = 1"),
       ("lp__,x"), ("# a1"), ("1.0,2.0"), t1, t2, t3, t4, t5] =
      .ok [⟨[("x")], [[("2.0")]], [("lp__")], [[("1.0")]],
        [("# num_samples = 2"), ("# num_warmup = 1"), ("# save_warmup = 0"), ("# thin = 1")],
        [("# a1")],
        ([t1, t2, t3, t4, t5].map pyStrip).filter (fun s => s.data ≠ [])⟩] := by
  rcases strShape t1 h1 with rfl | ⟨r1, rfl⟩ <;>
    rcases strShape t2 h2 with rfl | ⟨r2, rfl⟩ <;>
      rcases strShape t3 h3 with rfl | ⟨r3, rfl⟩ <;>
        rcases strShape t4 h4 with rfl | ⟨r4, rfl⟩ <;>
          rcases strShape t5 h5 with rfl | ⟨r5, rfl⟩ <;>
            rfl

/-- C6 witness: the window ["# T", "", "# U", "", ""] yields timing_info
["# T", "# U"]. -/
theorem C6_witness :
    readOutput ("p")
      [("# num_samples = 2"), ("# num_warmup = 1"), ("# save_warmup = 0"), ("# thin = 1"),
       ("lp__,x"), ("# a1"), ("1.0,2.0"), ("# T"), (""), ("# U"), (""), ("")] =
      .ok [⟨[("x")], [[("2.0")]], [("lp__")], [[("1.0")]],
        [("# num_samples = 2"), ("# num_warmup = 1"), ("# save_warmup = 0"), ("# thin = 1")],
        [("# a1")],
        ([("# T"), (""), ("# U"), (""), ("")].map pyStrip).filter (fun s => s.data ≠ [])⟩] :=
  C6_timing_window_no_break ("# T") ("") ("# U") ("") ("")
    (by decide) (by decide) (by decide) (by decide) (by decide)

/-- C6 counterexample: in the 5-line window after the last data row, the
non-empty line "# y" occurs after a blank line, yet it IS collected into
timing_info — the claim says collection stops at the first blank line, so
"# y" should never be included. -/
theorem C6_counterexample :
    readOutput ("p")
      [("# num_samples = 2"), ("# num_warmup = 1"), ("# save_warmup = 0"), ("# thin = 1"),
       ("lp__,x"), ("# a1"), ("1.0,2.0"), ("# x"), (""), ("# y")] =
      .ok [⟨[("x")], [[("2.0")]], [("lp__")], [[("1.0")]],
        [("# num_samples = 2"), ("# num_warmup = 1"), ("# save_warmup = 0"), ("# thin = 1")],
        [("# a1")], [("# x"), ("# y")]⟩] ∧
    (("# y") ∈ [("# x"), ("# y")]) ∧ [("# x"), ("# y")] ≠ [("# x")] := by
  refine ⟨by decide, by decide, by decide⟩

/-- C5 (amended): when save_warmup is true and floor(num_samples/thin) is
positive, each sub-table retains only its trailing floor(num_samples/thin)
rows — shown in general for every thin ≠ 0 and every floor quotient ≥ 1; an
end-to-end file with num_samples = 4 and thin = 2 yields a sample table of
exactly floor(4/2) = 2 rows with the saved warm-up data row excluded, a
warm-up file with thin = 1 yields a post-split sample table of exactly
num_samples rows with the first num_warmup data rows excluded, and with
save_warmup false a well-formed single-chain CSV yields exactly one
ChainSegment whose row count equals the file's body row count.  (When
floor(num_samples/thin) = 0 the source's df.iloc[-0:] keeps every row — see
the counterexample.) -/
theorem C5_warmup_row_trimming :
    (∀ (pc : RunConfig) (rows : List (List String)) (ns : Int),
      pc.save_warmup = some true → pc.num_samples = some ns → pc.thin ≠ 0 →
      1 ≤ Int.fdiv ns pc.thin →
      trimWarmup pc rows =
        .ok (rows.drop (rows.length - (Int.fdiv ns pc.thin).toNat))) ∧
    (readOutput ("p")
      [("# num_samples = 4"), ("# num_warmup = 2"), ("# save_warmup = 1"), ("# thin = 2"),
       ("lp__,x"), ("9.0,9.5"), ("# a1"), ("1.0,2.0"), ("3.0,4.0"),
       ("# t1"), ("# t2"), ("# t3"), ("# t4"), ("# t5")] =
      .ok [⟨[("x")], [[("2.0")], [("4.0")]], [("lp__")], [[("1.0")], [("3.0")]],
        [("# num_samples = 4"), ("# num_warmup = 2"), ("# save_warmup = 1"), ("# thin = 2")],
        [("# a1")], [("# t1"), ("# t2"), ("# t3"), ("# t4"), ("# t5")]⟩] ∧
      Int.fdiv 4 2 = 2 ∧
      ([[("2.0")], [("4.0")]] : List (List String)).length = 2 ∧
      ([("9.5")] : List String) ∉ [[("2.0")], [("4.0")]]) ∧
    (readOutput ("p")
      [("# num_samples = 2"), ("# num_warmup = 2"), ("# save_warmup = 1"), ("# thin = 1"),
       ("lp__,x"), ("9.0,9.5"), ("8.0,8.5"), ("# a1"), ("1.0,2.0"), ("3.0,4.0"),
       ("# t1"), ("# t2"), ("# t3"), ("# t4"), ("# t5")] =
      .ok [⟨[("x")], [[("2.0")], [("4.0")]], [("lp__")], [[("1.0")], [("3.0")]],
        [("# num_samples = 2"), ("# num_warmup = 2"), ("# save_warmup = 1"), ("# thin = 1")],
        [("# a1")], [("# t1"), ("# t2"), ("# t3"), ("# t4"), ("# t5")]⟩] ∧
      ([[("2.0")], [("4.0")]] : List (List String)).length = 2 ∧
      ([("9.5")] : List String) ∉ [[("2.0")], [("4.0")]] ∧
      ([("8.5")] : List String) ∉ [[("2.0")], [("4.0")]]) ∧
    (readOutput ("p")
      [("# num_samples = 2"), ("# num_warmup = 1"), ("# save_warmup = 0"), ("# thin = 1"),
       ("lp__,x"), ("# a1"), ("1.0,2.0"), ("3.0,4.0"),
       ("# t1"), ("# t2"), ("# t3"), ("# t4"), ("# t5")] =
      .ok [⟨[("x")], [[("2.0")], [("4.0")]], [("lp__")], [[("1.0")], [("3.0")]],
        [("# num_samples = 2"), ("# num_warmup = 1"), ("# save_warmup = 0"), ("# thin = 1")],
        [("# a1")], [("# t1"), ("# t2"), ("# t3"), ("# t4"), ("# t5")]⟩] ∧
      ([[("2.0")], [("4.0")]] : List (List String)).length = 2) := by
  refine ⟨?_, by decide, by decide, by decide⟩
  intro pc rows ns hsw hns hth hpos
  unfold trimWarmup
  rw [if_pos hsw, hns]
  simp only [bind, Except.bind, pyFloorDiv]
  rw [if_neg hth]
  show Except.ok (pyIlocFrom (-(Int.fdiv ns pc.thin)) rows) =
    Except.ok (List.drop (rows.length - (Int.fdiv ns pc.thin).toNat) rows)
  unfold pyIlocFrom
  rw [if_neg (by omega : ¬(0 : Int) ≤ -(Int.fdiv ns pc.thin))]
  have harith : ((rows.length : Int) + -(Int.fdiv ns pc.thin)).toNat =
      rows.length - (Int.fdiv ns pc.thin).toNat := by omega
  rw [harith]

/-- C5 witness: the general trimming clause applied to a concrete four-row
table with num_samples = 5 and thin = 2 keeps the trailing floor(5/2) = 2
rows. -/
theorem C5_witness :
    trimWarmup ⟨some 5, some 2, some true, 2⟩
      [[("9.5")], [("8.5")], [("2.0")], [("4.0")]] =
      .ok ([[("9.5")], [("8.5")], [("2.0")], [("4.0")]].drop
        (([[("9.5")], [("8.5")], [("2.0")], [("4.0")]] : List (List String)).length -
          (Int.fdiv 5 2).toNat)) :=
  C5_warmup_row_trimming.1 ⟨some 5, some 2, some true, 2⟩
    [[("9.5")], [("8.5")], [("2.0")], [("4.0")]] 5 rfl rfl (by decide) (by decide)

/-- C5 counterexample: with num_samples = 0, save_warmup = 1 and thin = 1 the
claim demands that floor(0/1) = 0 trailing rows be retained, but the source's
df.iloc[-0:] (since -0 = 0) keeps every row: the single warm-up data row
survives into the sample table. -/
theorem C5_counterexample :
    readOutput ("p")
      [("# num_samples = 0"), ("# num_warmup = 1"), ("# save_warmup = 1"), ("# thin = 1"),
       ("lp__,x"), ("9.0,9.5"), ("# a1"), ("# t1"), ("# t2"), ("# t3"), ("# t4"), ("# t5")] =
      .ok [⟨[("x")], [[("9.5")]], [("lp__")], [[("9.0")]],
        [("# num_samples = 0"), ("# num_warmup = 1"), ("# save_warmup = 1"), ("# thin = 1")],
        [("# a1"), ("# t1"), ("# t2"), ("# t3"), ("# t4"), ("# t5")], [("# t5")]⟩] ∧
    Int.fdiv 0 1 = 0 ∧
    ([[("9.5")]] : List (List String)).length ≠ 0 := by
  refine ⟨by decide, by decide, by decide⟩

theorem except_bind_ok {ε α β : Type} (a : α) (f : α → Except ε β) :
    (Except.ok a : Except ε α) >>= f = f a := rfl

theorem except_bind_err {ε α β : Type} (e : ε) (f : α → Except ε β) :
    (Except.error e : Except ε α) >>= f = Except.error e := rfl

theorem readMetaGo_ok (path : String) (ls : List String) (block : String) :
    ∀ (count : Nat) (n : Int),
      (∀ k : Nat, k < count → pyStartsWith (getline ls (n + (k : Int))) ("#") = true) →
      readMetaGo path ls block count n =
        .ok ((List.range count).map (fun k : Nat => getline ls (n + (k : Int)))) := by
  intro count
  induction count with
  | zero => intro n _; rfl
  | succ c ih =>
    intro n h
    have h0 : pyStartsWith (getline ls n) ("#") = true := by
      have hx := h 0 (Nat.succ_pos c)
      simpa using hx
    have hshift : ∀ k : Nat, k < c →
        pyStartsWith (getline ls (n + 1 + (k : Int))) ("#") = true := by
      intro k hk
      have hx := h (k + 1) (by omega)
      have harith : n + ((k + 1 : Nat) : Int) = n + 1 + (k : Int) := by push_cast; ring
      rw [harith] at hx
      exact hx
    rw [show readMetaGo path ls block (c + 1) n =
      (if pyStartsWith (getline ls n) ("#") = true then do
        let rest ← readMetaGo path ls block c (n + 1)
        Except.ok (getline ls n :: rest)
      else Except.error (.invalidFormat block path)) from rfl]
    rw [if_pos h0]
    rw [ih (n + 1) hshift, except_bind_ok]
    simp only [List.range_succ_eq_map, List.map_cons, List.map_map]
    congr 1
    congr 1
    · congr 1
      simp
    · congr 1
      funext k
      simp only [Function.comp]
      congr 1
      push_cast
      ring

theorem readMetaGo_err (path : String) (ls : List String) (block : String) :
    ∀ (count j : Nat) (n : Int), j < count →
      (∀ k : Nat, k < j → pyStartsWith (getline ls (n + (k : Int))) ("#") = true) →
      pyStartsWith (getline ls (n + (j : Int))) ("#") = false →
      readMetaGo path ls block count n = .error (.invalidFormat block path) := by
  intro count
  induction count with
  | zero => intro j n hj _ _; exact absurd hj (by omega)
  | succ c ih =>
    intro j n hj hpre hj0
    match j with
    | 0 =>
      have h0 : pyStartsWith (getline ls n) ("#") = false := by simpa using hj0
      rw [show readMetaGo path ls block (c + 1) n =
        (if pyStartsWith (getline ls n) ("#") = true then do
          let rest ← readMetaGo path ls block c (n + 1)
          Except.ok (getline ls n :: rest)
        else Except.error (.invalidFormat block path)) from rfl]
      rw [if_neg (by simp [h0])]
    | j' + 1 =>
      have h0 : pyStartsWith (getline ls n) ("#") = true := by
        have hx := hpre 0 (by omega)
        simpa using hx
      have hshiftpre : ∀ k : Nat, k < j' →
          pyStartsWith (getline ls (n + 1 + (k : Int))) ("#") = true := by
        intro k hk
        have hx := hpre (k + 1) (by omega)
        have harith : n + ((k + 1 : Nat) : Int) = n + 1 + (k : Int) := by push_cast; ring
        rw [harith] at hx
        exact hx
      have hshiftj : pyStartsWith (getline ls (n + 1 + (j' : Int))) ("#") = false := by
        have harith : n + ((j' + 1 : Nat) : Int) = n + 1 + (j' : Int) := by push_cast; ring
        rw [harith] at hj0
        exact hj0
      rw [show readMetaGo path ls block (c + 1) n =
        (if pyStartsWith (getline ls n) ("#") = true then do
          let rest ← readMetaGo path ls block c (n + 1)
          Except.ok (getline ls n :: rest)
        else Except.error (.invalidFormat block path)) from rfl]
      rw [if_pos h0]
      rw [ih j' (n + 1) (by omega) hshiftpre hshiftj, except_bind_err]

theorem readMetaLines_ok (path : String) (ls : List String) (a b : Int) (block : String)
    (h : ∀ k : Nat, k < (b - a).toNat → pyStartsWith (getline ls (a + (k : Int))) ("#") = true) :
    readMetaLines path ls a b block = .ok (fileSlice ls a b) :=
  readMetaGo_ok path ls block (b - a).toNat a h

theorem readMetaLines_err (path : String) (ls : List String) (a b : Int) (block : String)
    (j : Nat) (hj : j < (b - a).toNat)
    (hpre : ∀ k : Nat, k < j → pyStartsWith (getline ls (a + (k : Int))) ("#") = true)
    (hbad : pyStartsWith (getline ls (a + (j : Int))) ("#") = false) :
    readMetaLines path ls a b block = .error (.invalidFormat block path) :=
  readMetaGo_err path ls block (b - a).toNat j a hj hpre hbad

theorem segLoopRest_nil (path : String) (ls : List String) (cols : List String) (st : SegSt) :
    segLoopRest path ls cols [] st = .ok [] := rfl

theorem segLoopRest_single (path : String) (ls : List String) (cols : List String)
    (rows2 : List (List String)) (st : SegSt) (pc2 : RunConfig) (wr : Int)
    (rows2t : List (List String))
    (hconf : ∀ k : Nat, k < st.clen →
      pyStartsWith (getline ls (st.lastLine + 1 + (k : Int))) ("#") = true)
    (hpc : processConfiguration
      (fileSlice ls (st.lastLine + 1) (st.lastLine + 1 + (st.clen : Int))) = .ok pc2)
    (hwr : warmupRows pc2 = .ok wr)
    (hadapt : ∀ k : Nat, k < st.alen →
      pyStartsWith (getline ls
        (st.lastLine + 1 + (st.clen : Int) + 1 + wr + (k : Int))) ("#") = true)
    (htim : ∀ k : Nat, k < st.tlen →
      pyStartsWith (getline ls
        (st.lastLine + 1 + (st.clen : Int) + 1 + wr + (st.alen : Int) +
          (rows2.length : Int) - wr + (k : Int))) ("#") = true)
    (htlen : st.tlen ≠ 0)
    (htrim : trimWarmup pc2 rows2 = .ok rows2t) :
    segLoopRest path ls cols [rows2] st =
      .ok [mkSeg cols rows2t
        (fileSlice ls (st.lastLine + 1) (st.lastLine + 1 + (st.clen : Int)))
        (fileSlice ls (st.lastLine + 1 + (st.clen : Int) + 1 + wr)
          (st.lastLine + 1 + (st.clen : Int) + 1 + wr + (st.alen : Int)))
        (fileSlice ls
          (st.lastLine + 1 + (st.clen : Int) + 1 + wr + (st.alen : Int) +
            (rows2.length : Int) - wr)
          (st.lastLine + 1 + (st.clen : Int) + 1 + wr + (st.alen : Int) +
            (rows2.length : Int) - wr + (st.tlen : Int)))] := by
  have hconfB : ∀ k : Nat,
      k < ((st.lastLine + 1 + (st.clen : Int)) - (st.lastLine + 1)).toNat →
      pyStartsWith (getline ls (st.lastLine + 1 + (k : Int))) ("#") = true := by
    intro k hk
    exact hconf k (by omega)
  have hadaptB : ∀ k : Nat,
      k < ((st.lastLine + 1 + (st.clen : Int) + 1 + wr + (st.alen : Int)) -
        (st.lastLine + 1 + (st.clen : Int) + 1 + wr)).toNat →
      pyStartsWith (getline ls
        (st.lastLine + 1 + (st.clen : Int) + 1 + wr + (k : Int))) ("#") = true := by
    intro k hk
    exact hadapt k (by omega)
  have htimB : ∀ k : Nat,
      k < ((st.lastLine + 1 + (st.clen : Int) + 1 + wr + (st.alen : Int) +
          (rows2.length : Int) - wr + (st.tlen : Int)) -
        (st.lastLine + 1 + (st.clen : Int) + 1 + wr + (st.alen : Int) +
          (rows2.length : Int) - wr)).toNat →
      pyStartsWith (getline ls
        (st.lastLine + 1 + (st.clen : Int) + 1 + wr + (st.alen : Int) +
          (rows2.length : Int) - wr + (k : Int))) ("#") = true := by
    intro k hk
    exact htim k (by omega)
  rw [show segLoopRest path ls cols [rows2] st = (do
    let conf ← readMetaLines path ls (st.lastLine + 1)
      (st.lastLine + 1 + (st.clen : Int)) ("Configuration")
    let pc ← confOrErr (processConfiguration conf)
    let wr2 ← warmupRows pc
    let adapt ← readMetaLines path ls (st.lastLine + 1 + (st.clen : Int) + 1 + wr2)
      (st.lastLine + 1 + (st.clen : Int) + 1 + wr2 + (st.alen : Int)) ("Adaptation")
    let timing ← readMetaLines path ls
      (st.lastLine + 1 + (st.clen : Int) + 1 + wr2 + (st.alen : Int) +
        (rows2.length : Int) - wr2)
      (st.lastLine + 1 + (st.clen : Int) + 1 + wr2 + (st.alen : Int) +
        (rows2.length : Int) - wr2 + (st.tlen : Int)) ("Timing")
    let lastLine2 ← lastReadLine st (st.lastLine + 1 + (st.clen : Int))
      (st.lastLine + 1 + (st.clen : Int) + 1 + wr2 + (st.alen : Int))
      (st.lastLine + 1 + (st.clen : Int) + 1 + wr2 + (st.alen : Int) +
        (rows2.length : Int) - wr2 + (st.tlen : Int))
    let rows2x ← trimWarmup pc rows2
    let rest ← segLoopRest path ls cols [] { st with lastLine := lastLine2 }
    Except.ok (mkSeg cols rows2x conf adapt timing :: rest)) from rfl]
  rw [readMetaLines_ok path ls _ _ ("Configuration") hconfB, except_bind_ok]
  rw [hpc]
  rw [show confOrErr (Except.ok pc2) = Except.ok pc2 from rfl, except_bind_ok]
  rw [hwr, except_bind_ok]
  rw [readMetaLines_ok path ls _ _ ("Adaptation") hadaptB, except_bind_ok]
  rw [readMetaLines_ok path ls _ _ ("Timing") htimB, except_bind_ok]
  rw [show lastReadLine st (st.lastLine + 1 + (st.clen : Int))
      (st.lastLine + 1 + (st.clen : Int) + 1 + wr + (st.alen : Int))
      (st.lastLine + 1 + (st.clen : Int) + 1 + wr + (st.alen : Int) +
        (rows2.length : Int) - wr + (st.tlen : Int)) =
    Except.ok (st.lastLine + 1 + (st.clen : Int) + 1 + wr + (st.alen : Int) +
      (rows2.length : Int) - wr + (st.tlen : Int) - 1) from by
    unfold lastReadLine
    rw [if_pos htlen]]
  rw [except_bind_ok]
  rw [htrim, except_bind_ok]
  rw [segLoopRest_nil, except_bind_ok]

/-- C2: a stacked CSV with two concatenated header blocks splits into exactly
two ChainSegments in physical file order, with the second segment's
configuration / adaptation / timing lines re-read from line ranges computed
arithmetically from the previous segment's metadata-line counts, the
sub-table's row count and its warm-up-row count (shown concretely for the
fixture and in general for the second-segment reader); and any line of a
computed metadata range that does not start with the comment marker aborts
with an InvalidFormat error naming the file and the expected block (shown in
general for the range reader, and end-to-end for each of the three blocks). -/
theorem C2_stacked_two_chain_split :
    (readOutput ("p") stackedFile =
      .ok [⟨[("x")], [[("2.0")], [("4.0")]], [("lp__")], [[("1.0")], [("3.0")]],
        [("# num_samples = 2"), ("# num_warmup = 1"), ("# save_warmup = 0"), ("# thin = 1")],
        [("# a1")], [("# t1"), ("# t2"), ("# t3"), ("# t4"), ("# t5")]⟩,
       ⟨[("x")], [[("6.0")], [("8.0")]], [("lp__")], [[("5.0")], [("7.0")]],
        [("# num_samples = 2"), ("# num_warmup = 1"), ("# save_warmup = 0"), ("# thin = 1")],
        [("# a2")], [("# u1"), ("# u2"), ("# u3"), ("# u4"), ("# u5")]⟩]) ∧
    (∀ (path : String) (ls : List String) (cols : List String)
        (rows2 : List (List String)) (st : SegSt) (pc2 : RunConfig) (wr : Int)
        (rows2t : List (List String)),
      (∀ k : Nat, k < st.clen →
        pyStartsWith (getline ls (st.lastLine + 1 + (k : Int))) ("#") = true) →
      processConfiguration
        (fileSlice ls (st.lastLine + 1) (st.lastLine + 1 + (st.clen : Int))) = .ok pc2 →
      warmupRows pc2 = .ok wr →
      (∀ k : Nat, k < st.alen →
        pyStartsWith (getline ls
          (st.lastLine + 1 + (st.clen : Int) + 1 + wr + (k : Int))) ("#") = true) →
      (∀ k : Nat, k < st.tlen →
        pyStartsWith (getline ls
          (st.lastLine + 1 + (st.clen : Int) + 1 + wr + (st.alen : Int) +
            (rows2.length : Int) - wr + (k : Int))) ("#") = true) →
      st.tlen ≠ 0 →
      trimWarmup pc2 rows2 = .ok rows2t →
      segLoopRest path ls cols [rows2] st =
        .ok [mkSeg cols rows2t
          (fileSlice ls (st.lastLine + 1) (st.lastLine + 1 + (st.clen : Int)))
          (fileSlice ls (st.lastLine + 1 + (st.clen : Int) + 1 + wr)
            (st.lastLine + 1 + (st.clen : Int) + 1 + wr + (st.alen : Int)))
          (fileSlice ls
            (st.lastLine + 1 + (st.clen : Int) + 1 + wr + (st.alen : Int) +
              (rows2.length : Int) - wr)
            (st.lastLine + 1 + (st.clen : Int) + 1 + wr + (st.alen : Int) +
              (rows2.length : Int) - wr + (st.tlen : Int)))]) ∧
    (∀ (path : String) (ls : List String) (a b : Int) (block : String) (j : Nat),
      j < (b - a).toNat →
      (∀ k : Nat, k < j → pyStartsWith (getline ls (a + (k : Int))) ("#") = true) →
      pyStartsWith (getline ls (a + (j : Int))) ("#") = false →
      readMetaLines path ls a b block = .error (.invalidFormat block path)) ∧
    readOutput ("p") (stackedFile.set 14 ("")) =
      .error (.invalidFormat ("Configuration") ("p")) ∧
    readOutput ("p") (stackedFile.set 18 ("")) =
      .error (.invalidFormat ("Adaptation") ("p")) ∧
    readOutput ("p") (stackedFile.set 23 ("")) =
      .error (.invalidFormat ("Timing") ("p")) := by
  refine ⟨by decide, ?_, readMetaLines_err, by decide, by decide, by decide⟩
  intro path ls cols rows2 st pc2 wr rows2t hconf hpc hwr hadapt htim htlen htrim
  exact segLoopRest_single path ls cols rows2 st pc2 wr rows2t
    hconf hpc hwr hadapt htim htlen htrim

/-- C2 witness: the general second-segment clause applied to the stacked
fixture's own layout state recovers the second header block's metadata lines
from their recomputed ranges. -/
theorem C2_witness :
    segLoopRest ("p") stackedFile [("lp__"), ("x")]
      [[[("5.0"), ("6.0")], [("7.0"), ("8.0")]]] ⟨4, 1, 5, 13⟩ =
      .ok [mkSeg [("lp__"), ("x")] [[("5.0"), ("6.0")], [("7.0"), ("8.0")]]
        (fileSlice stackedFile (13 + 1) (13 + 1 + (4 : Int)))
        (fileSlice stackedFile (13 + 1 + (4 : Int) + 1 + 0)
          (13 + 1 + (4 : Int) + 1 + 0 + (1 : Int)))
        (fileSlice stackedFile (13 + 1 + (4 : Int) + 1 + 0 + (1 : Int) + (2 : Int) - 0)
          (13 + 1 + (4 : Int) + 1 + 0 + (1 : Int) + (2 : Int) - 0 + (5 : Int)))] :=
  C2_stacked_two_chain_split.2.1 ("p") stackedFile [("lp__"), ("x")]
    [[("5.0"), ("6.0")], [("7.0"), ("8.0")]] ⟨4, 1, 5, 13⟩
    ⟨some 2, some 1, some false, 1⟩ 0 [[("5.0"), ("6.0")], [("7.0"), ("8.0")]]
    (by decide) (by decide) (by decide) (by decide) (by decide) (by decide) (by decide)

theorem sampleStatsToXarray_none (c : Conv) (h : c.sample_stats = none) :
    sampleStatsToXarray c = .ok (c, none) := by
  unfold sampleStatsToXarray
  rw [h]

theorem sampleStatsToXarray_some (c : Conv) (stats : List SDf)
    (h : c.sample_stats = some stats) :
    sampleStatsToXarray c = (do
      let stats3 ← statsMutate c stats
      let data ← unpackOrErr stats3
      Except.ok (({c with sample_stats := some stats3} : Conv),
        some (Dataset.tensors data))) := by
  unfold sampleStatsToXarray
  rw [h]

theorem ppToXarray_of_none (c : Conv) (h : c.posterior_predictive = none) :
    ppToXarray c = .ok none := by
  unfold ppToXarray
  rw [h]
  cases c.posterior <;> rfl

theorem sampleStats_preserves_pp (c c2 : Conv) (ds : Option Dataset)
    (h : sampleStatsToXarray c = .ok (c2, ds)) :
    c2.posterior_predictive = c.posterior_predictive := by
  cases hss : c.sample_stats with
  | none =>
    rw [sampleStatsToXarray_none c hss] at h
    simp only [Except.ok.injEq, Prod.mk.injEq] at h
    rw [← h.1]
  | some stats =>
    rw [sampleStatsToXarray_some c stats hss] at h
    cases hm : statsMutate c stats with
    | error e =>
      rw [hm, except_bind_err] at h
      exact Except.noConfusion h
    | ok stats3 =>
      rw [hm, except_bind_ok] at h
      cases hu : unpackOrErr stats3 with
      | error e =>
        rw [hu, except_bind_err] at h
        exact Except.noConfusion h
      | ok m =>
        rw [hu, except_bind_ok] at h
        simp only [Except.ok.injEq, Prod.mk.injEq] at h
        rw [← h.1]

/-- C8: when posterior_predictive is absent, its extraction returns no
dataset and raises no error; to_inference_data equals the pipeline of the
other four extractors alone (so the other groups are unaffected); and the
posterior_predictive group is absent from the final named collection. -/
theorem C8_missing_input_group_omitted (c : Conv)
    (h : c.posterior_predictive = none) :
    ppToXarray c = .ok none ∧
    toInferenceData c = (do
      let p ← posteriorToXarray c
      let sres ← sampleStatsToXarray c
      let pr ← priorToXarray sres.1
      let od ← observedToXarray sres.1
      Except.ok (mkGroups p sres.2 none pr od)) ∧
    (∀ g, toInferenceData c = .ok g → g.lookup ("posterior_predictive") = none) := by
  have hmk : ∀ p ss pr od : Option Dataset,
      (mkGroups p ss none pr od).lookup ("posterior_predictive") = none := by
    intro p ss pr od
    rcases p <;> rcases ss <;> rcases pr <;> rcases od <;> rfl
  have heq : toInferenceData c = (do
      let p ← posteriorToXarray c
      let sres ← sampleStatsToXarray c
      let pr ← priorToXarray sres.1
      let od ← observedToXarray sres.1
      Except.ok (mkGroups p sres.2 none pr od)) := by
    unfold toInferenceData
    cases hp : posteriorToXarray c with
    | error e => rw [except_bind_err, except_bind_err]
    | ok p =>
      rw [except_bind_ok, except_bind_ok]
      cases hs : sampleStatsToXarray c with
      | error e => rw [except_bind_err, except_bind_err]
      | ok sres =>
        rw [except_bind_ok, except_bind_ok]
        have hpp2 : ppToXarray sres.1 = .ok none := by
          apply ppToXarray_of_none
          rw [sampleStats_preserves_pp c sres.1 sres.2 (by rw [hs])]
          exact h
        rw [hpp2, except_bind_ok]
  refine ⟨ppToXarray_of_none c h, heq, ?_⟩
  intro g hg
  rw [heq] at hg
  cases hp : posteriorToXarray c with
  | error e =>
    rw [hp, except_bind_err] at hg
    exact Except.noConfusion hg
  | ok p =>
    rw [hp, except_bind_ok] at hg
    cases hs : sampleStatsToXarray c with
    | error e =>
      rw [hs, except_bind_err] at hg
      exact Except.noConfusion hg
    | ok sres =>
      rw [hs, except_bind_ok] at hg
      cases hr : priorToXarray sres.1 with
      | error e =>
        rw [hr, except_bind_err] at hg
        exact Except.noConfusion hg
      | ok pr =>
        rw [hr, except_bind_ok] at hg
        cases ho : observedToXarray sres.1 with
        | error e =>
          rw [ho, except_bind_err] at hg
          exact Except.noConfusion hg
        | ok od =>
          rw [ho, except_bind_ok] at hg
          simp only [Except.ok.injEq] at hg
          rw [← hg]
          exact hmk p sres.2 pr od

/-- C8 witness: the omission theorem applied to a concrete converter state. -/
theorem C8_witness :
    ppToXarray convNoPP = .ok none ∧
    toInferenceData convNoPP = (do
      let p ← posteriorToXarray convNoPP
      let sres ← sampleStatsToXarray convNoPP
      let pr ← priorToXarray sres.1
      let od ← observedToXarray sres.1
      Except.ok (mkGroups p sres.2 none pr od)) ∧
    (∀ g, toInferenceData convNoPP = .ok g →
      g.lookup ("posterior_predictive") = none) :=
  C8_missing_input_group_omitted convNoPP rfl

/-- C9 (amended): extracting sample-stats does mutate the converter's stored
sample_stats tables: with no log-likelihood merge requested, the stored
tables afterwards are exactly the cast-and-renamed versions of the original
tables (dtype casts applied in place, trailing double-underscore stripped,
divergent renamed to diverging). -/
theorem C9_sample_stats_mutation (c : Conv) (dfs : List SDf)
    (hss : c.sample_stats = some dfs) (hll : c.log_likelihood = none) :
    ∀ (c2 : Conv) (ds : Option Dataset), sampleStatsToXarray c = .ok (c2, ds) →
      c2.sample_stats = some (dfs.map castRenameDf) := by
  intro c2 ds h
  rw [sampleStatsToXarray_some c dfs hss] at h
  have hmut : statsMutate c dfs = .ok (dfs.map castRenameDf) := by
    unfold statsMutate statsLLCols
    rw [hll]
    rfl
  rw [hmut, except_bind_ok] at h
  cases hu : unpackOrErr (dfs.map castRenameDf) with
  | error e =>
    rw [hu, except_bind_err] at h
    exact Except.noConfusion h
  | ok m =>
    rw [hu, except_bind_ok] at h
    simp only [Except.ok.injEq, Prod.mk.injEq] at h
    rw [← h.1]

/-- C9 witness: the mutation theorem applied to the fixture. -/
theorem C9_witness :
    ∃ (c2 : Conv) (ds : Option Dataset),
      sampleStatsToXarray statsConvEx = .ok (c2, ds) ∧
      c2.sample_stats =
        some ([[⟨("divergent__"), ("float64"), [decOfNat 0]⟩]].map castRenameDf) := by
  refine ⟨_, _, rfl, ?_⟩
  exact C9_sample_stats_mutation statsConvEx _ rfl rfl _ _ rfl

/-- C9 counterexample: extracting sample-stats changes the stored tables —
the stored column divergent__ (float64) is afterwards named diverging with
dtype bool, so the stored parsed tables are not left unchanged. -/
theorem C9_counterexample :
    ∃ (c2 : Conv) (ds : Option Dataset),
      sampleStatsToXarray statsConvEx = .ok (c2, ds) ∧
      c2.sample_stats = some [[⟨("diverging"), ("bool"), [decOfNat 0]⟩]] ∧
      c2.sample_stats ≠ statsConvEx.sample_stats := by
  refine ⟨_, _, rfl, by decide, by decide⟩
